import Mathlib

/-!
Verification of the shape/index algebra of the general dilated convolution
primitive (`jax/_src/lax/convolution.py`): the shape-inference rule, the
transpose (gradient) rules, the vectorized-batching rule, the transposed
convolution padding calculator and the dimension-number canonicalizer.

Shapes are lists of natural numbers; explicit padding amounts are pairs of
(possibly negative) integers, as in the source.  Python floor division on
integers is `Int.fdiv`.  Helper functions of the repository that are not part
of the file under study (`lax._dilate_shape`, `lax.padtype_to_pads`,
`core.stride_shape`, `core.diff_shape`, `core.sum_shapes`, `lax.reshape`,
`lax.rev`) are modelled from the specification and marked as such.
-/

set_option linter.unusedVariables false

/-! ### Generic list helpers -/

/-- Models `np.take(a, idx)` on shape tuples: `result[i] = a[idx[i]]`. -/
def takeIdx (a : List Nat) (idx : List Nat) : List Nat :=
  idx.map (fun i => a.getD i 0)

/-- Models `np.argsort(p)` for the case used by the code, where `p` is a
permutation of `0..n-1`: position of each value `v` inside `p`. -/
def argsort (p : List Nat) : List Nat :=
  (List.range p.length).map (fun v => p.indexOf v)

/-- A dimension spec for rank `n`: a permutation of `0, …, n-1` given as a
list (no duplicates, all entries below `n`, length `n`). -/
def IsSpec (p : List Nat) (n : Nat) : Prop :=
  p.length = n ∧ p.Nodup ∧ ∀ x ∈ p, x < n

instance (p : List Nat) (n : Nat) : Decidable (IsSpec p n) := by
  unfold IsSpec; infer_instance

theorem getD_map_range (f : Nat → Nat) (n i d : Nat) (h : i < n) :
    ((List.range n).map f).getD i d = f i := by
  rw [List.getD_eq_getElem _ _ (by simpa using h), List.getElem_map, List.getElem_range]

theorem takeIdx_length (a idx : List Nat) : (takeIdx a idx).length = idx.length := by
  simp [takeIdx]

theorem takeIdx_getD (a idx : List Nat) (i : Nat) (h : i < idx.length) :
    (takeIdx a idx).getD i 0 = a.getD (idx.getD i 0) 0 := by
  rw [takeIdx, List.getD_eq_getElem _ _ (by simpa using h), List.getElem_map,
    List.getD_eq_getElem _ _ h]

theorem argsort_length (p : List Nat) : (argsort p).length = p.length := by
  simp [argsort]

theorem ext_getD {a b : List Nat} (hl : a.length = b.length)
    (h : ∀ i, i < a.length → a.getD i 0 = b.getD i 0) : a = b := by
  apply List.ext_getElem hl
  intro i h1 h2
  rw [← List.getD_eq_getElem a 0 h1, ← List.getD_eq_getElem b 0 h2]
  exact h i h1

theorem IsSpec.toFinset_eq {p : List Nat} {n : Nat} (h : IsSpec p n) :
    p.toFinset = Finset.range n := by
  obtain ⟨hlen, hnd, hub⟩ := h
  apply Finset.eq_of_subset_of_card_le
  · intro x hx
    rw [List.mem_toFinset] at hx
    rw [Finset.mem_range]
    exact hub x hx
  · rw [Finset.card_range, List.toFinset_card_of_nodup hnd, hlen]

theorem IsSpec.mem {p : List Nat} {n : Nat} (h : IsSpec p n) {v : Nat} (hv : v < n) : v ∈ p := by
  rw [← List.mem_toFinset, h.toFinset_eq, Finset.mem_range]
  exact hv

theorem IsSpec.getD_lt {p : List Nat} {n : Nat} (h : IsSpec p n) {j : Nat} (hj : j < n) :
    p.getD j 0 < n := by
  have hj' : j < p.length := h.1 ▸ hj
  rw [List.getD_eq_getElem _ _ hj']
  exact h.2.2 _ (List.getElem_mem hj')

theorem indexOf_getD {p : List Nat} (hnd : p.Nodup) {j : Nat} (hj : j < p.length) :
    p.indexOf (p.getD j 0) = j := by
  rw [List.getD_eq_getElem _ _ hj]
  exact List.get_indexOf hnd ⟨j, hj⟩

theorem argsort_getD {p : List Nat} {n : Nat} (h : IsSpec p n) {v : Nat} (hv : v < n) :
    (argsort p).getD v 0 = p.indexOf v := by
  exact getD_map_range _ _ _ _ (h.1 ▸ hv)

theorem takeIdx_argsort_getD {p : List Nat} {n : Nat} (h : IsSpec p n) (a : List Nat)
    {j : Nat} (hj : j < n) :
    (takeIdx a (argsort p)).getD (p.getD j 0) 0 = a.getD j 0 := by
  have hv : p.getD j 0 < n := h.getD_lt hj
  rw [takeIdx_getD _ _ _ (by rw [argsort_length, h.1]; exact hv)]
  rw [argsort_getD h hv, indexOf_getD h.2.1 (h.1 ▸ hj)]

/-- Applying a spec permutation and then its argsort restores the original list. -/
theorem takeIdx_takeIdx_argsort {p : List Nat} {n : Nat} (h : IsSpec p n)
    {a : List Nat} (ha : a.length = n) :
    takeIdx (takeIdx a p) (argsort p) = a := by
  apply ext_getD (by rw [takeIdx_length, argsort_length, h.1, ha])
  intro v hv
  rw [takeIdx_length, argsort_length, h.1] at hv
  have hmem : v ∈ p := h.mem hv
  have hidx : p.indexOf v < p.length := List.indexOf_lt_length.mpr hmem
  have hpg : p.getD (p.indexOf v) 0 = v := by
    rw [List.getD_eq_getElem _ _ hidx]
    exact List.indexOf_get hidx
  rw [takeIdx_getD _ _ _ (by rw [argsort_length, h.1]; exact hv)]
  rw [argsort_getD h hv]
  rw [takeIdx_getD _ _ _ hidx, hpg]

/-- Permuting with `argsort p` and then with `p` restores the original list. -/
theorem takeIdx_argsort_takeIdx {p : List Nat} {n : Nat} (h : IsSpec p n)
    {a : List Nat} (ha : a.length = n) :
    takeIdx (takeIdx a (argsort p)) p = a := by
  apply ext_getD (by rw [takeIdx_length, h.1, ha])
  intro j hj
  rw [takeIdx_length, h.1] at hj
  rw [takeIdx_getD _ _ _ (h.1 ▸ hj)]
  exact takeIdx_argsort_getD h a hj

theorem zipWith_getD {α β γ : Type} [Inhabited α] [Inhabited β] [Inhabited γ]
    (f : α → β → γ) (a : List α) (b : List β) (i : Nat)
    (hi : i < a.length) (hj : i < b.length) :
    (List.zipWith f a b).getD i default = f (a.getD i default) (b.getD i default) := by
  have hz : i < (List.zipWith f a b).length := by
    rw [List.length_zipWith]; omega
  rw [List.getD_eq_getElem _ _ hz, List.getD_eq_getElem _ _ hi, List.getD_eq_getElem _ _ hj]
  simp

theorem getD_drop (l : List Nat) (n i : Nat) (h : n + i < l.length) :
    (l.drop n).getD i 0 = l.getD (n + i) 0 := by
  rw [List.getD_eq_getElem _ _ (by simp; omega), List.getD_eq_getElem _ _ h]
  rw [List.getElem_drop]

theorem length_drop_spec (l : List Nat) (n : Nat) : (l.drop n).length = l.length - n := by
  simp

theorem getD_set_ne (l : List Nat) (i j v : Nat) (h : i ≠ j) :
    (l.set i v).getD j 0 = l.getD j 0 := by
  rcases Nat.lt_or_ge j l.length with hj | hj
  · rw [List.getD_eq_getElem _ _ (by simpa using hj), List.getD_eq_getElem _ _ hj]
    exact List.getElem_set_ne h _
  · rw [List.getD_eq_default _ _ (by simpa using hj), List.getD_eq_default _ _ hj]

theorem getD_set_self (l : List Nat) (i v : Nat) (h : i < l.length) :
    (l.set i v).getD i 0 = v := by
  rw [List.getD_eq_getElem _ _ (by simpa using h)]
  exact List.getElem_set_self _

theorem set_getD_self (l : List Nat) (i : Nat) (h : i < l.length) :
    l.set i (l.getD i 0) = l := by
  rw [List.getD_eq_getElem _ _ h]
  exact List.ext_getElem (by simp) (fun j hj hj2 => by
    rcases eq_or_ne i j with rfl | hne
    · rw [List.getElem_set_self]
    · rw [List.getElem_set_ne hne])

theorem takeIdx_range_prefix (l : List Nat) (k : Nat) (h : k ≤ l.length) :
    takeIdx l (List.range k) = l.take k := by
  apply ext_getD (by simp [takeIdx_length]; omega)
  intro i hi
  rw [takeIdx_length, List.length_range] at hi
  rw [takeIdx_getD _ _ _ (by simpa using hi)]
  rw [List.getD_eq_getElem (List.range k) 0 (by simpa using hi), List.getElem_range]
  rw [List.getD_eq_getElem _ _ (by omega), List.getD_eq_getElem _ _ (by simp; omega)]
  rw [List.getElem_take]

theorem takeIdx_range_drop (l : List Nat) (k : Nat) :
    takeIdx l ((List.range l.length).drop k) = l.drop k := by
  apply ext_getD (by simp [takeIdx_length])
  intro i hi
  rw [takeIdx_length, List.length_drop, List.length_range] at hi
  rw [takeIdx_getD _ _ _ (by simp; omega)]
  rw [getD_drop _ _ _ (by simp; omega)]
  rw [List.getD_eq_getElem (List.range l.length) 0 (by simp; omega), List.getElem_range]
  rw [getD_drop _ _ _ (by omega)]

/-- `filter (· ≠ src)` on `range n`, as an explicit list surgery. -/
theorem filter_ne_range (n src : Nat) :
    (List.range n).filter (fun i => i ≠ src) =
      if n ≤ src then List.range n
      else List.range src ++ (List.range n).drop (src + 1) := by
  induction n with
  | zero => simp
  | succ n ih =>
      rw [List.range_succ, List.filter_append, ih]
      rcases Nat.lt_trichotomy n src with h | h | h
      · rw [if_pos (by omega), if_pos (by omega)]
        have h2 : (List.filter (fun i => decide (i ≠ src)) [n]) = [n] := by
          simp; omega
        rw [h2]
      · rw [if_pos (by omega), if_neg (by omega)]
        have h2 : (List.filter (fun i => decide (i ≠ src)) [n]) = [] := by
          simp [h]
        have h3 : (List.range n ++ [n]).drop (src + 1) = [] := by
          apply List.drop_eq_nil_of_le
          simp
          omega
        rw [h2, h3, List.append_nil, List.append_nil, h]
      · rw [if_neg (by omega), if_neg (by omega)]
        have h2 : (List.filter (fun i => decide (i ≠ src)) [n]) = [n] := by
          simp; omega
        rw [h2, List.append_assoc]
        congr 1
        rw [List.drop_append_of_le_length (by simp; omega)]

theorem eraseIdx_append_cons (l1 l2 : List Nat) (x : Nat) :
    (l1 ++ x :: l2).eraseIdx l1.length = l1 ++ l2 := by
  induction l1 with
  | nil => rfl
  | cons a t ih => simp [List.eraseIdx, ih]

theorem insertIdx_append (l1 l2 : List Nat) (x : Nat) :
    (l1 ++ l2).insertIdx l1.length x = l1 ++ x :: l2 := by
  induction l1 with
  | nil => rfl
  | cons a t ih => simp [List.insertIdx_succ_cons, ih]

/-- The permutation built by `_reshape_axis_into` with `dst = src` is the identity. -/
theorem filter_insertIdx_self (n src : Nat) (h : src < n) :
    (((List.range n).filter (fun i => i ≠ src)).insertIdx src src) = List.range n := by
  rw [filter_ne_range, if_neg (by omega)]
  have hlen : (List.range src).length = src := by simp
  have hins := insertIdx_append (List.range src) ((List.range n).drop (src + 1)) src
  rw [hlen] at hins
  rw [hins]
  have hdecomp : List.range n = List.take src (List.range n) ++
      (List.range n).get ⟨src, by simpa using h⟩ :: List.drop (src + 1) (List.range n) := by
    conv_lhs => rw [← List.take_append_drop src (List.range n)]
    congr 1
    exact List.drop_eq_getElem_cons (by simpa using h)
  rw [List.take_range] at hdecomp
  have : (List.range n).get ⟨src, by simpa using h⟩ = src := by simp
  rw [this] at hdecomp
  rw [Nat.min_eq_left (by omega)] at hdecomp
  exact hdecomp.symm

theorem map_getD_range_self {α : Type} [Inhabited α] (l : List α) :
    (List.range l.length).map (fun n => l.getD n default) = l := by
  apply List.ext_getElem (by simp)
  intro i h1 h2
  rw [List.getElem_map, List.getElem_range, List.getD_eq_getElem _ _ h2]

/-! ### Row-major arrays -/

/-- Unflatten a row-major linear offset into a multi-index for `shape`. -/
def fromLin : List Nat → Nat → List Nat
  | [], _ => []
  | _ :: rest, n => (n / rest.prod) :: fromLin rest (n % rest.prod)

/-- Flatten a multi-index into a row-major linear offset for `shape`. -/
def toLin : List Nat → List Nat → Nat
  | _ :: rest, i :: idx => i * rest.prod + toLin rest idx
  | _, _ => 0

theorem fromLin_length (sh : List Nat) (n : Nat) : (fromLin sh n).length = sh.length := by
  induction sh generalizing n with
  | nil => rfl
  | cons s rest ih => simp [fromLin, ih]

theorem toLin_fromLin (sh : List Nat) (n : Nat) (h : n < sh.prod) :
    toLin sh (fromLin sh n) = n := by
  induction sh generalizing n with
  | nil => simp [List.prod_nil] at h; simp [fromLin, toLin, h]
  | cons s rest ih =>
      rw [List.prod_cons] at h
      have hp : 0 < rest.prod := by
        rcases Nat.eq_zero_or_pos rest.prod with h0 | h0
        · rw [h0, Nat.mul_zero] at h; omega
        · exact h0
      rw [fromLin, toLin]
      rw [ih _ (Nat.mod_lt _ hp)]
      rw [Nat.mul_comm]
      exact Nat.div_add_mod n rest.prod

/-- An n-dimensional array: a shape and flat row-major data. -/
structure NDArray (α : Type) where
  shape : List Nat
  data : List α
  deriving DecidableEq

/-- Well-formedness: the flat data has exactly as many entries as the shape. -/
def NDArray.wf {α : Type} (x : NDArray α) : Prop := x.data.length = x.shape.prod

/-- Models `np.transpose(x, perm)`: axis `i` of the result is axis `perm[i]`
of the input. -/
def transpose {α : Type} [Inhabited α] (perm : List Nat) (x : NDArray α) : NDArray α :=
  let sh := takeIdx x.shape perm
  ⟨sh, (List.range sh.prod).map
    (fun n => x.data.getD (toLin x.shape (takeIdx (fromLin sh n) (argsort perm))) default)⟩

/-- Modelled from the spec: `lax.reshape(operand, new_sizes, dimensions)`
(not part of the source file under study) first transposes the operand by
`dimensions` when given, then reinterprets the row-major data with the new
sizes. -/
def lax_reshape {α : Type} [Inhabited α] (x : NDArray α) (new_sizes : List Nat)
    (dims : Option (List Nat)) : NDArray α :=
  match dims with
  | none => ⟨new_sizes, x.data⟩
  | some p => ⟨new_sizes, (transpose p x).data⟩

/-- Modelled from the spec: `lax.rev(x, axes)` (not part of the source file
under study) reverses the entries of `x` along each axis in `axes`; the shape
is unchanged. -/
def lax_rev {α : Type} [Inhabited α] (x : NDArray α) (axes : List Nat) : NDArray α :=
  ⟨x.shape, (List.range x.shape.prod).map
    (fun n => x.data.getD (toLin x.shape
      ((List.range x.shape.length).map (fun k =>
        let i := (fromLin x.shape n).getD k 0
        if k ∈ axes then x.shape.getD k 0 - 1 - i else i))) default)⟩

theorem lax_rev_shape {α : Type} [Inhabited α] (x : NDArray α) (axes : List Nat) :
    (lax_rev x axes).shape = x.shape := rfl

/-- `_reshape_axis_into(src, dst, x)` from the source: remove axis `src`,
fold it (as the outer factor) into the axis at position `dst` of the
remaining axes, keeping the data order given by moving axis `src` to
position `dst`. -/
def _reshape_axis_into {α : Type} [Inhabited α] (src dst : Nat) (x : NDArray α) : NDArray α :=
  let perm := ((List.range x.shape.length).filter (fun i => i ≠ src)).insertIdx dst src
  let ns := x.shape.eraseIdx src
  let new_shape := ns.set dst (ns.getD dst 0 * x.shape.getD src 0)
  lax_reshape x new_shape (some perm)

/-- `_reshape_axis_out_of(src, size1, x)` from the source: split axis `src`
of size `size1 * size2` into two axes `[size1, size2]` (plain row-major
reshape, data unchanged).  The source asserts `size1` divides the axis. -/
def _reshape_axis_out_of {α : Type} [Inhabited α] (src : Nat) (size1 : Nat)
    (x : NDArray α) : NDArray α :=
  let size2 := x.shape.getD src 0 / size1
  lax_reshape x (x.shape.take src ++ size1 :: size2 :: x.shape.drop (src + 1)) none

theorem reshape_axis_out_of_shape {α : Type} [Inhabited α] (src size1 : Nat) (x : NDArray α) :
    (_reshape_axis_out_of src size1 x).shape =
      x.shape.take src ++ size1 :: (x.shape.getD src 0 / size1) :: x.shape.drop (src + 1) := rfl

theorem reshape_axis_out_of_data {α : Type} [Inhabited α] (src size1 : Nat) (x : NDArray α) :
    (_reshape_axis_out_of src size1 x).data = x.data := rfl

theorem reshape_axis_into_shape {α : Type} [Inhabited α] (src dst : Nat) (x : NDArray α) :
    (_reshape_axis_into src dst x).shape =
      (x.shape.eraseIdx src).set dst
        ((x.shape.eraseIdx src).getD dst 0 * x.shape.getD src 0) := rfl

theorem transpose_shape {α : Type} [Inhabited α] (perm : List Nat) (x : NDArray α) :
    (transpose perm x).shape = takeIdx x.shape perm := rfl

theorem transpose_data {α : Type} [Inhabited α] (perm : List Nat) (x : NDArray α) :
    (transpose perm x).data = (List.range (takeIdx x.shape perm).prod).map
      (fun n => x.data.getD
        (toLin x.shape (takeIdx (fromLin (takeIdx x.shape perm) n) (argsort perm))) default) := rfl

/-- `takeIdx` along the full identity range is the identity. -/
theorem takeIdx_range_self (l : List Nat) : takeIdx l (List.range l.length) = l := by
  apply ext_getD (by simp [takeIdx_length])
  intro i hi
  rw [takeIdx_length, List.length_range] at hi
  rw [takeIdx_getD _ _ _ (by simpa using hi)]
  rw [List.getD_eq_getElem (List.range _) 0 (by simpa using hi), List.getElem_range]

theorem argsort_range (n : Nat) : argsort (List.range n) = List.range n := by
  have hspec : IsSpec (List.range n) n := by
    refine ⟨by simp, List.nodup_range _, ?_⟩
    intro v hv
    simpa using hv
  apply ext_getD (by simp [argsort_length])
  intro v hv
  rw [argsort_length, List.length_range] at hv
  rw [argsort_getD hspec hv]
  have h1 := indexOf_getD (p := List.range n) (List.nodup_range _) (by simpa using hv)
  rw [List.getD_eq_getElem (List.range _) 0 (by simpa using hv), List.getElem_range] at h1
  rw [List.getD_eq_getElem (List.range _) 0 (by simpa using hv), List.getElem_range]
  exact h1

/-- Transposing by the identity permutation is the identity on well-formed
arrays. -/
theorem transpose_range {α : Type} [Inhabited α] (x : NDArray α) (hwf : x.wf) :
    transpose (List.range x.shape.length) x = x := by
  have hwf' : x.data.length = x.shape.prod := hwf
  have hsh : takeIdx x.shape (List.range x.shape.length) = x.shape := takeIdx_range_self _
  have hd : (transpose (List.range x.shape.length) x).data = x.data := by
    rw [transpose_data, hsh, argsort_range]
    have hdata : ∀ n ∈ List.range x.shape.prod,
        List.getD x.data
            (toLin x.shape (takeIdx (fromLin x.shape n) (List.range x.shape.length))) default =
          x.data.getD n default := by
      intro n hn
      rw [List.mem_range] at hn
      have htake : takeIdx (fromLin x.shape n) (List.range x.shape.length) = fromLin x.shape n := by
        rw [← fromLin_length x.shape n]
        exact takeIdx_range_self _
      rw [htake, toLin_fromLin _ _ hn]
    rw [List.map_congr_left hdata]
    rw [← hwf']
    exact map_getD_range_self x.data
  have hs : (transpose (List.range x.shape.length) x).shape = x.shape := by
    rw [transpose_shape]
    exact hsh
  have heta : transpose (List.range x.shape.length) x =
      ⟨(transpose (List.range x.shape.length) x).shape,
       (transpose (List.range x.shape.length) x).data⟩ := rfl
  rw [heta, hs, hd]

theorem getD_append_length (l1 l2 : List Nat) (a : Nat) (k : Nat) (hk : k = l1.length) :
    (l1 ++ a :: l2).getD k 0 = a := by
  subst hk
  induction l1 with
  | nil => rfl
  | cons b t ih => simpa using ih

theorem set_append_length (l1 l2 : List Nat) (a v : Nat) (k : Nat) (hk : k = l1.length) :
    (l1 ++ a :: l2).set k v = l1 ++ v :: l2 := by
  subst hk
  induction l1 with
  | nil => rfl
  | cons b t ih => simp [List.set, ih]

theorem eraseIdx_append_cons_at (l1 l2 : List Nat) (x : Nat) (k : Nat) (hk : k = l1.length) :
    (l1 ++ x :: l2).eraseIdx k = l1 ++ l2 := by
  subst hk
  induction l1 with
  | nil => rfl
  | cons a t ih => simp [List.eraseIdx, ih]

theorem insertIdx_append_at (l1 l2 : List Nat) (x : Nat) (k : Nat) (hk : k = l1.length) :
    (l1 ++ l2).insertIdx k x = l1 ++ x :: l2 := by
  subst hk
  induction l1 with
  | nil => rfl
  | cons a t ih => simp [List.insertIdx_succ_cons, ih]

theorem shape_decomp (l : List Nat) (src : Nat) (h : src < l.length) :
    l = l.take src ++ l.getD src 0 :: l.drop (src + 1) := by
  conv_lhs => rw [← List.take_append_drop src l]
  congr 1
  rw [List.getD_eq_getElem _ _ h]
  exact List.drop_eq_getElem_cons h

theorem prod_append_cons (l1 l2 : List Nat) (a : Nat) :
    (l1 ++ a :: l2).prod = l1.prod * (a * l2.prod) := by
  simp [List.prod_append, List.prod_cons]

theorem takeIdx_append (a : List Nat) (i1 i2 : List Nat) :
    takeIdx a (i1 ++ i2) = takeIdx a i1 ++ takeIdx a i2 := by
  simp [takeIdx]

theorem takeIdx_insertIdx (a l : List Nat) (dst v : Nat) (h : dst ≤ l.length) :
    takeIdx a (l.insertIdx dst v) = (takeIdx a l).insertIdx dst (a.getD v 0) := by
  induction dst generalizing l with
  | zero => simp [takeIdx]
  | succ d ih =>
      cases l with
      | nil => simp at h
      | cons b t =>
          rw [List.insertIdx_succ_cons]
          rw [show takeIdx a (b :: t.insertIdx d v) = a.getD b 0 :: takeIdx a (t.insertIdx d v)
            from rfl]
          rw [ih t (by simpa using h)]
          rw [show takeIdx a (b :: t) = a.getD b 0 :: takeIdx a t from rfl]
          rw [List.insertIdx_succ_cons]

/-- `takeIdx` of the `filter (· ≠ src)` index list deletes entry `src`. -/
theorem takeIdx_filter_ne (l : List Nat) (src : Nat) (h : src < l.length) :
    takeIdx l ((List.range l.length).filter (fun i => i ≠ src)) = l.eraseIdx src := by
  rw [filter_ne_range, if_neg (by omega)]
  rw [takeIdx_append, takeIdx_range_prefix _ _ (by omega), takeIdx_range_drop]
  conv_rhs => rw [shape_decomp l src h]
  rw [eraseIdx_append_cons_at _ _ _ src (by simp; omega)]

/-- The merge step of `_reshape_axis_into src src` exactly inverts the split
step of `_reshape_axis_out_of src size1` at the same axis. -/
theorem reshape_into_out_of_self {α : Type} [Inhabited α] (x : NDArray α) (src size1 : Nat)
    (hwf : x.wf) (hsrc : src < x.shape.length) (hpos : 0 < size1)
    (hdvd : size1 ∣ x.shape.getD src 0) :
    _reshape_axis_into src src (_reshape_axis_out_of src size1 x) = x := by
  have hmul : size1 * (x.shape.getD src 0 / size1) = x.shape.getD src 0 :=
    Nat.mul_div_cancel' hdvd
  have htklen : (x.shape.take src).length = src := by simp; omega
  set y := _reshape_axis_out_of src size1 x with hy
  have hyshape : y.shape =
      x.shape.take src ++ size1 :: (x.shape.getD src 0 / size1) :: x.shape.drop (src + 1) :=
    reshape_axis_out_of_shape src size1 x
  have hydata : y.data = x.data := rfl
  have hylen : y.shape.length = x.shape.length + 1 := by
    rw [hyshape]
    simp
    omega
  have hywf : y.wf := by
    show y.data.length = y.shape.prod
    rw [hydata, hyshape, prod_append_cons, List.prod_cons, ← Nat.mul_assoc size1, hmul]
    have hx : x.data.length = x.shape.prod := hwf
    rw [hx]
    conv_lhs => rw [shape_decomp x.shape src hsrc]
    rw [prod_append_cons]
  have hperm : ((List.range y.shape.length).filter (fun i => i ≠ src)).insertIdx src src =
      List.range y.shape.length := filter_insertIdx_self _ _ (by omega)
  have hns : y.shape.eraseIdx src =
      x.shape.take src ++ (x.shape.getD src 0 / size1) :: x.shape.drop (src + 1) := by
    rw [hyshape]
    exact eraseIdx_append_cons_at _ _ _ src htklen.symm
  have hnsget : (y.shape.eraseIdx src).getD src 0 = x.shape.getD src 0 / size1 := by
    rw [hns]
    exact getD_append_length _ _ _ src htklen.symm
  have hysrc : y.shape.getD src 0 = size1 := by
    rw [hyshape]
    exact getD_append_length _ _ _ src htklen.symm
  have hres : _reshape_axis_into src src y =
      ⟨(y.shape.eraseIdx src).set src ((y.shape.eraseIdx src).getD src 0 * y.shape.getD src 0),
       (transpose (((List.range y.shape.length).filter (fun i => i ≠ src)).insertIdx src src)
         y).data⟩ := rfl
  rw [hres, hperm, transpose_range y hywf, hydata, hnsget, hysrc, hns]
  rw [set_append_length _ _ _ _ src htklen.symm]
  rw [Nat.mul_comm (x.shape.getD src 0 / size1) size1, hmul]
  rw [← shape_decomp x.shape src hsrc]

theorem take_append_left_at (l1 l2 : List Nat) (k : Nat) (hk : k = l1.length) :
    (l1 ++ l2).take k = l1 := by
  subst hk
  induction l1 with
  | nil => rfl
  | cons b t ih => simpa using ih

theorem drop_append_cons_at (l1 l2 : List Nat) (a : Nat) (k : Nat) (hk : k = l1.length) :
    (l1 ++ a :: l2).drop (k + 1) = l2 := by
  subst hk
  induction l1 with
  | nil => rfl
  | cons b t ih => simpa using ih

/-- Splitting the merged axis `dst` of `_reshape_axis_into src dst x` by the
factor `x.shape[src]` recovers the entries of `x` with the folded axis
outermost at position `dst`: the result is exactly the transpose of `x` that
moves axis `src` to position `dst`. -/
theorem reshape_out_of_into {α : Type} [Inhabited α] (x : NDArray α) (src dst : Nat)
    (hsrc : src < x.shape.length) (hdst : dst < x.shape.length - 1)
    (hpos : 0 < x.shape.getD src 0) :
    _reshape_axis_out_of dst (x.shape.getD src 0) (_reshape_axis_into src dst x) =
      transpose (((List.range x.shape.length).filter (fun i => i ≠ src)).insertIdx dst src) x := by
  have hfillen : ((List.range x.shape.length).filter (fun i => i ≠ src)).length =
      x.shape.length - 1 := by
    have h1 := takeIdx_filter_ne x.shape src hsrc
    have hl := congrArg List.length h1
    rw [takeIdx_length] at hl
    rw [hl, List.length_eraseIdx]
    simp [hsrc]
  have hnslen : (x.shape.eraseIdx src).length = x.shape.length - 1 := by
    rw [List.length_eraseIdx]
    simp [hsrc]
  have hnsdst : dst < (x.shape.eraseIdx src).length := by omega
  have htkdlen : ((x.shape.eraseIdx src).take dst).length = dst := by
    simp
    omega
  have hns_decomp : x.shape.eraseIdx src =
      (x.shape.eraseIdx src).take dst ++ (x.shape.eraseIdx src).getD dst 0 ::
        (x.shape.eraseIdx src).drop (dst + 1) :=
    shape_decomp _ dst hnsdst
  have hperm_shape : takeIdx x.shape
      (((List.range x.shape.length).filter (fun i => i ≠ src)).insertIdx dst src) =
      (x.shape.eraseIdx src).insertIdx dst (x.shape.getD src 0) := by
    rw [takeIdx_insertIdx _ _ _ _ (by rw [hfillen]; omega)]
    rw [takeIdx_filter_ne x.shape src hsrc]
  have hmerge_shape : (_reshape_axis_into src dst x).shape =
      (x.shape.eraseIdx src).take dst ++
        ((x.shape.eraseIdx src).getD dst 0 * x.shape.getD src 0) ::
        (x.shape.eraseIdx src).drop (dst + 1) := by
    rw [reshape_axis_into_shape]
    rw [List.set_eq_take_append_cons_drop, if_pos hnsdst]
  have hsplit_shape : (_reshape_axis_out_of dst (x.shape.getD src 0)
      (_reshape_axis_into src dst x)).shape =
      (x.shape.eraseIdx src).take dst ++ x.shape.getD src 0 ::
        (x.shape.eraseIdx src).getD dst 0 :: (x.shape.eraseIdx src).drop (dst + 1) := by
    rw [reshape_axis_out_of_shape, hmerge_shape]
    rw [take_append_left_at _ _ dst htkdlen.symm]
    rw [getD_append_length _ _ _ dst htkdlen.symm]
    rw [drop_append_cons_at _ _ _ dst htkdlen.symm]
    rw [Nat.mul_div_cancel _ hpos]
  have htrans_shape : (transpose (((List.range x.shape.length).filter
      (fun i => i ≠ src)).insertIdx dst src) x).shape =
      (x.shape.eraseIdx src).take dst ++ x.shape.getD src 0 ::
        (x.shape.eraseIdx src).getD dst 0 :: (x.shape.eraseIdx src).drop (dst + 1) := by
    rw [transpose_shape, hperm_shape]
    conv_lhs => rw [hns_decomp]
    rw [insertIdx_append_at _ _ _ dst htkdlen.symm]
  have hdata : (_reshape_axis_out_of dst (x.shape.getD src 0)
      (_reshape_axis_into src dst x)).data =
      (transpose (((List.range x.shape.length).filter (fun i => i ≠ src)).insertIdx dst src)
        x).data := rfl
  have heta : _reshape_axis_out_of dst (x.shape.getD src 0) (_reshape_axis_into src dst x) =
      ⟨(_reshape_axis_out_of dst (x.shape.getD src 0) (_reshape_axis_into src dst x)).shape,
       (_reshape_axis_out_of dst (x.shape.getD src 0) (_reshape_axis_into src dst x)).data⟩ := rfl
  have heta2 : transpose (((List.range x.shape.length).filter
      (fun i => i ≠ src)).insertIdx dst src) x =
      ⟨(transpose (((List.range x.shape.length).filter (fun i => i ≠ src)).insertIdx dst src)
          x).shape,
       (transpose (((List.range x.shape.length).filter (fun i => i ≠ src)).insertIdx dst src)
          x).data⟩ := rfl
  rw [heta, heta2, hsplit_shape, htrans_shape, hdata]

/-- Shape effect of splitting axis `a` by `G` and merging the split-out group
axis into axis `b` (the group-refolding pattern of the transpose rules). -/
theorem into_out_of_shape {α : Type} [Inhabited α] (x : NDArray α) (a b G : Nat)
    (ha : a < x.shape.length) (hab : a ≠ b) :
    (_reshape_axis_into a b (_reshape_axis_out_of a G x)).shape =
      (x.shape.set a (x.shape.getD a 0 / G)).set b (x.shape.getD b 0 * G) := by
  have htklen : (x.shape.take a).length = a := by simp; omega
  rw [reshape_axis_into_shape, reshape_axis_out_of_shape]
  rw [eraseIdx_append_cons_at _ _ _ a htklen.symm]
  rw [getD_append_length _ _ _ a htklen.symm]
  have hxset : x.shape.set a (x.shape.getD a 0 / G) =
      x.shape.take a ++ (x.shape.getD a 0 / G) :: x.shape.drop (a + 1) := by
    rw [List.set_eq_take_append_cons_drop, if_pos ha]
  rw [← hxset]
  congr 1
  rw [getD_set_ne _ _ _ _ hab]

/-! ### Convolution data model -/

/-- Error tags for every failure path of the embedded functions. -/
inductive ConvError where
  | rankMismatch
  | fgcNonpos
  | fgcNotDividesLhsFeature
  | lhsFeatureQuotientMismatch
  | rhsOutFeatureNotMultipleFgc
  | bgcNonpos
  | bgcNotDividesLhsBatch
  | rhsOutFeatureNotMultipleBgc
  | bothGroupCountsGtOne
  | windowStridesRankMismatch
  | wrongPadCount
  | ndimMismatch
  | dnumsTupleLength
  | dnumsEltLength
  | dnumsCharCount
  | dnumsDupChars
  | dnumsSpatialChars
  | stringPaddingTransposedConv
  | badPaddingMode
  deriving DecidableEq

/-- `ConvDimensionNumbers` from the source: canonical
`(lhs_spec, rhs_spec, out_spec)` axis permutations. -/
structure ConvDimensionNumbers where
  lhs_spec : List Nat
  rhs_spec : List Nat
  out_spec : List Nat
  deriving DecidableEq

/-- `_conv_spec_transpose` from the source: swap the first two entries. -/
def _conv_spec_transpose (spec : List Nat) : List Nat :=
  spec.getD 1 0 :: spec.getD 0 0 :: spec.drop 2

/-- `_conv_sdims` from the source: the spatial entries of a spec. -/
def _conv_sdims (spec : List Nat) : List Nat := spec.drop 2

/-- Modelled from the spec: per-axis dilated size `(size-1)*dilation + 1`
when `size > 0`, else `0` (`core.dilate_shape`; not in the source file). -/
def dilate (d s : Nat) : Nat := if d = 0 then 0 else (d - 1) * s + 1

/-- Modelled from the spec: `lax._dilate_shape` (not in the source file)
left-pads the dilation list with 1s to the shape's length (so batch and
feature axes are unchanged) and dilates each axis. -/
def _dilate_shape (shape dilation : List Nat) : List Nat :=
  List.zipWith dilate shape (List.replicate (shape.length - dilation.length) 1 ++ dilation)

/-- Modelled from the spec: `core.stride_shape` (not in the source file):
per spatial axis `floor((padded_input - kernel) / stride) + 1`, with Python
floor division on integers. -/
def stride_shape (lhs_padded : List Int) (rhs_spatial : List Nat) (strides : List Nat) :
    List Int :=
  List.zipWith3 (fun (p : Int) (k : Nat) (s : Nat) => (p - (k : Int)).fdiv (s : Int) + 1)
    lhs_padded rhs_spatial strides

/-- `conv_shape_tuple` from the source: result shape of a convolution whose
inputs are already permuted to canonical `(batch/out-feature, feature,
spatial...)` order.  Only the explicit-pads form is embedded (the callers
always resolve symbolic padding first).  `np.maximum(0, out_space)` together
with the integer-to-size conversion is `Int.toNat`.  The source `assert`s
that `batch_group_count` divides the batch size; natural division stands in
for the asserted exact division. -/
def conv_shape_tuple (lhs_shape rhs_shape : List Nat) (strides : List Nat)
    (pads : List (Int × Int)) (batch_group_count : Nat) : Except ConvError (List Nat) :=
  if pads.length ≠ lhs_shape.length - 2 then .error .wrongPadCount
  else
    let lhs_padded : List Int :=
      List.zipWith (fun (d : Nat) (p : Int × Int) => (d : Int) + p.1 + p.2)
        (lhs_shape.drop 2) pads
    let out_space : List Nat :=
      (stride_shape lhs_padded (rhs_shape.drop 2) strides).map Int.toNat
    let out_shape_0 : Nat := if batch_group_count > 1
      then lhs_shape.getD 0 0 / batch_group_count else lhs_shape.getD 0 0
    .ok (out_shape_0 :: rhs_shape.getD 0 0 :: out_space)

/-- `_conv_general_dilated_shape_rule` from the source, with every `raise`
replaced by an error tag naming the check that fired, in the source's
textual order. -/
def _conv_general_dilated_shape_rule (lhs rhs : List Nat) (window_strides : List Nat)
    (padding : List (Int × Int)) (lhs_dilation rhs_dilation : List Nat)
    (dn : ConvDimensionNumbers) (feature_group_count batch_group_count : Nat) :
    Except ConvError (List Nat) :=
  if lhs.length ≠ rhs.length then .error .rankMismatch
  else if ¬ feature_group_count > 0 then .error .fgcNonpos
  else if lhs.getD (dn.lhs_spec.getD 1 0) 0 % feature_group_count ≠ 0 then
    .error .fgcNotDividesLhsFeature
  else if lhs.getD (dn.lhs_spec.getD 1 0) 0 / feature_group_count ≠
      rhs.getD (dn.rhs_spec.getD 1 0) 0 then .error .lhsFeatureQuotientMismatch
  else if rhs.getD (dn.rhs_spec.getD 0 0) 0 % feature_group_count ≠ 0 then
    .error .rhsOutFeatureNotMultipleFgc
  else if ¬ batch_group_count > 0 then .error .bgcNonpos
  else if batch_group_count > 1 ∧
      lhs.getD (dn.lhs_spec.getD 0 0) 0 % batch_group_count ≠ 0 then
    .error .bgcNotDividesLhsBatch
  else if rhs.getD (dn.rhs_spec.getD 0 0) 0 % batch_group_count ≠ 0 then
    .error .rhsOutFeatureNotMultipleBgc
  else if batch_group_count > 1 ∧ feature_group_count > 1 then .error .bothGroupCountsGtOne
  else if (_conv_sdims dn.rhs_spec).length ≠ window_strides.length then
    .error .windowStridesRankMismatch
  else
    (conv_shape_tuple (_dilate_shape (takeIdx lhs dn.lhs_spec) lhs_dilation)
      (_dilate_shape (takeIdx rhs dn.rhs_spec) rhs_dilation)
      window_strides padding batch_group_count).map
      (fun out_trans => takeIdx out_trans (argsort dn.out_spec))

/-- First entry of a check list whose condition fired. -/
def firstFail : List (Bool × ConvError) → Option ConvError
  | [] => none
  | (b, e) :: rest => if b then some e else firstFail rest

/-- The shape rule's validation conditions in the order the source tests
them, each paired with its error tag; the final entry is the explicit-pads
count check performed inside `conv_shape_tuple`. -/
def shape_rule_checks (lhs rhs : List Nat) (window_strides : List Nat)
    (padding : List (Int × Int)) (lhs_dilation rhs_dilation : List Nat)
    (dn : ConvDimensionNumbers) (fgc bgc : Nat) : List (Bool × ConvError) :=
  [ (decide (lhs.length ≠ rhs.length), .rankMismatch),
    (decide (¬ fgc > 0), .fgcNonpos),
    (decide (lhs.getD (dn.lhs_spec.getD 1 0) 0 % fgc ≠ 0), .fgcNotDividesLhsFeature),
    (decide (lhs.getD (dn.lhs_spec.getD 1 0) 0 / fgc ≠ rhs.getD (dn.rhs_spec.getD 1 0) 0),
      .lhsFeatureQuotientMismatch),
    (decide (rhs.getD (dn.rhs_spec.getD 0 0) 0 % fgc ≠ 0), .rhsOutFeatureNotMultipleFgc),
    (decide (¬ bgc > 0), .bgcNonpos),
    (decide (bgc > 1 ∧ lhs.getD (dn.lhs_spec.getD 0 0) 0 % bgc ≠ 0), .bgcNotDividesLhsBatch),
    (decide (rhs.getD (dn.rhs_spec.getD 0 0) 0 % bgc ≠ 0), .rhsOutFeatureNotMultipleBgc),
    (decide (bgc > 1 ∧ fgc > 1), .bothGroupCountsGtOne),
    (decide ((_conv_sdims dn.rhs_spec).length ≠ window_strides.length),
      .windowStridesRankMismatch),
    (decide (padding.length ≠ (_dilate_shape (takeIdx lhs dn.lhs_spec) lhs_dilation).length - 2),
      .wrongPadCount) ]

/-- The shape computed on the success path of the rule. -/
def shape_rule_out (lhs rhs : List Nat) (window_strides : List Nat)
    (padding : List (Int × Int)) (lhs_dilation rhs_dilation : List Nat)
    (dn : ConvDimensionNumbers) (bgc : Nat) : List Nat :=
  let lhs_trans := _dilate_shape (takeIdx lhs dn.lhs_spec) lhs_dilation
  let rhs_trans := _dilate_shape (takeIdx rhs dn.rhs_spec) rhs_dilation
  let lhs_padded : List Int :=
    List.zipWith (fun (d : Nat) (p : Int × Int) => (d : Int) + p.1 + p.2)
      (lhs_trans.drop 2) padding
  let out_space := (stride_shape lhs_padded (rhs_trans.drop 2) window_strides).map Int.toNat
  let out0 := if bgc > 1 then lhs_trans.getD 0 0 / bgc else lhs_trans.getD 0 0
  takeIdx (out0 :: rhs_trans.getD 0 0 :: out_space) (argsort dn.out_spec)

/-- The rule is exactly "first failing check in source order, else the
computed shape". -/
theorem shape_rule_eq_firstFail (lhs rhs : List Nat) (ws : List Nat)
    (pads : List (Int × Int)) (ld rd : List Nat) (dn : ConvDimensionNumbers) (fgc bgc : Nat) :
    _conv_general_dilated_shape_rule lhs rhs ws pads ld rd dn fgc bgc =
      match firstFail (shape_rule_checks lhs rhs ws pads ld rd dn fgc bgc) with
      | some e => .error e
      | none => .ok (shape_rule_out lhs rhs ws pads ld rd dn bgc) := by
  unfold _conv_general_dilated_shape_rule shape_rule_checks
  by_cases h1 : lhs.length ≠ rhs.length
  · rw [if_pos h1, decide_eq_true h1]; rfl
  rw [if_neg h1, decide_eq_false h1]
  by_cases h2 : ¬ fgc > 0
  · rw [if_pos h2, decide_eq_true h2]; rfl
  rw [if_neg h2, decide_eq_false h2]
  by_cases h3 : lhs.getD (dn.lhs_spec.getD 1 0) 0 % fgc ≠ 0
  · rw [if_pos h3, decide_eq_true h3]; rfl
  rw [if_neg h3, decide_eq_false h3]
  by_cases h4 : lhs.getD (dn.lhs_spec.getD 1 0) 0 / fgc ≠ rhs.getD (dn.rhs_spec.getD 1 0) 0
  · rw [if_pos h4, decide_eq_true h4]; rfl
  rw [if_neg h4, decide_eq_false h4]
  by_cases h5 : rhs.getD (dn.rhs_spec.getD 0 0) 0 % fgc ≠ 0
  · rw [if_pos h5, decide_eq_true h5]; rfl
  rw [if_neg h5, decide_eq_false h5]
  by_cases h6 : ¬ bgc > 0
  · rw [if_pos h6, decide_eq_true h6]; rfl
  rw [if_neg h6, decide_eq_false h6]
  by_cases h7 : bgc > 1 ∧ lhs.getD (dn.lhs_spec.getD 0 0) 0 % bgc ≠ 0
  · rw [if_pos h7, decide_eq_true h7]; rfl
  rw [if_neg h7, decide_eq_false h7]
  by_cases h8 : rhs.getD (dn.rhs_spec.getD 0 0) 0 % bgc ≠ 0
  · rw [if_pos h8, decide_eq_true h8]; rfl
  rw [if_neg h8, decide_eq_false h8]
  by_cases h9 : bgc > 1 ∧ fgc > 1
  · rw [if_pos h9, decide_eq_true h9]; rfl
  rw [if_neg h9, decide_eq_false h9]
  by_cases h10 : (_conv_sdims dn.rhs_spec).length ≠ ws.length
  · rw [if_pos h10, decide_eq_true h10]; rfl
  rw [if_neg h10, decide_eq_false h10]
  unfold conv_shape_tuple
  by_cases h11 : pads.length ≠ (_dilate_shape (takeIdx lhs dn.lhs_spec) ld).length - 2
  · rw [if_pos h11, decide_eq_true h11]; rfl
  rw [if_neg h11, decide_eq_false h11]
  rfl

/-! ### Gradient (transpose) rules -/

/-- `_conv_general_vjp_lhs_padding` from the source: per spatial axis,
`pad_before = dilated_kernel - pad_lo - 1` and
`pad_after = dilated_input + dilated_kernel - 1 - dilated_output - pad_before`. -/
def _conv_general_vjp_lhs_padding (in_shape window_dimensions : List Nat)
    (window_strides : List Nat) (out_shape : List Nat) (padding : List (Int × Int))
    (lhs_dilation rhs_dilation : List Nat) : List (Int × Int) :=
  let lhs_dilated_shape := _dilate_shape in_shape lhs_dilation
  let rhs_dilated_shape := _dilate_shape window_dimensions rhs_dilation
  let out_dilated_shape := _dilate_shape out_shape window_strides
  let pad_before := List.zipWith (fun (k : Nat) (p : Int × Int) => (k : Int) - p.1 - 1)
    rhs_dilated_shape padding
  let pad_after := List.zipWith (fun (x : Int) (pb : Int) => x - pb)
    (List.zipWith (fun (x : Int) (o : Nat) => x - (o : Int))
      (List.zipWith (fun (l k : Nat) => (l : Int) + (k : Int) - 1)
        lhs_dilated_shape rhs_dilated_shape)
      out_dilated_shape)
    pad_before
  List.zipWith (fun a b => (a, b)) pad_before pad_after

/-- `_conv_general_vjp_rhs_padding` from the source (`core.diff_shape` and
`core.sum_shapes`, not in the source file, are elementwise subtraction and
addition, modelled from the spec's formula: `pad_before` is the original low
pad, `pad_after = (dilated_output - dilated_input) + (dilated_kernel -
pad_before - 1)`). -/
def _conv_general_vjp_rhs_padding (in_shape window_dimensions : List Nat)
    (window_strides : List Nat) (out_shape : List Nat) (padding : List (Int × Int))
    (lhs_dilation rhs_dilation : List Nat) : List (Int × Int) :=
  if in_shape.length = 0 then []
  else
    let lhs_dilated_shape := _dilate_shape in_shape lhs_dilation
    let rhs_dilated_shape := _dilate_shape window_dimensions rhs_dilation
    let out_dilated_shape := _dilate_shape out_shape window_strides
    let pads_lo : List Int := padding.map (fun p => p.1)
    let pads_from_lhs := List.zipWith (fun (o l : Nat) => (o : Int) - (l : Int))
      out_dilated_shape lhs_dilated_shape
    let pads_from_rhs := List.zipWith (fun (k : Nat) (lo : Int) => (k : Int) - lo - 1)
      rhs_dilated_shape pads_lo
    let pads_hi := List.zipWith (fun (a b : Int) => a + b) pads_from_lhs pads_from_rhs
    List.zipWith (fun lo hi => (lo, hi)) pads_lo pads_hi

/-- The argument set of a `conv_general_dilated` call emitted by a rule
(`precision` and `preferred_element_type` pass-throughs are not modelled:
they do not affect shapes). -/
structure ConvCall (α β : Type) where
  lhs : NDArray α
  rhs : NDArray β
  window_strides : List Nat
  padding : List (Int × Int)
  lhs_dilation : List Nat
  rhs_dilation : List Nat
  dimension_numbers : ConvDimensionNumbers
  feature_group_count : Nat
  batch_group_count : Nat
  deriving DecidableEq

/-- Models binding the convolution primitive on operand arrays: numeric
execution is outside the scope of the source file, so the bound node is an
abstract array carrying the inferred output shape computed by the shape
rule (raising the shape rule's error when validation fails). -/
def conv_apply {α β : Type} [Inhabited α] [Inhabited β] (c : ConvCall α β) :
    Except ConvError (NDArray Unit) :=
  (_conv_general_dilated_shape_rule c.lhs.shape c.rhs.shape c.window_strides c.padding
    c.lhs_dilation c.rhs_dilation c.dimension_numbers c.feature_group_count
    c.batch_group_count).map (fun s => ⟨s, List.replicate s.prod ()⟩)

/-- The `conv_general_dilated` call constructed by
`_conv_general_dilated_transpose_lhs` in the source: group-refold the kernel
when grouped, reverse it along the spatial axes, swap its feature roles in
the spec, swap `lhs_dilation` with `window_strides`, and recompute padding
with `_conv_general_vjp_lhs_padding`. -/
def _conv_general_dilated_transpose_lhs_call {α : Type} [Inhabited α]
    (g rhs : NDArray α) (window_strides : List Nat) (padding : List (Int × Int))
    (lhs_dilation rhs_dilation : List Nat) (dn : ConvDimensionNumbers)
    (feature_group_count batch_group_count : Nat) (lhs_shape rhs_shape : List Nat) :
    ConvCall α α :=
  let lhs_sdims := _conv_sdims dn.lhs_spec
  let rhs_sdims := _conv_sdims dn.rhs_spec
  let out_sdims := _conv_sdims dn.out_spec
  let t_rhs_spec := _conv_spec_transpose dn.rhs_spec
  let rhs2 :=
    if feature_group_count > 1 then
      _reshape_axis_into (dn.rhs_spec.getD 0 0) (dn.rhs_spec.getD 1 0)
        (_reshape_axis_out_of (dn.rhs_spec.getD 0 0) feature_group_count rhs)
    else if batch_group_count > 1 then
      _reshape_axis_into (dn.rhs_spec.getD 0 0) (dn.rhs_spec.getD 1 0)
        (_reshape_axis_out_of (dn.rhs_spec.getD 0 0) batch_group_count rhs)
    else rhs
  let fgc2 := if batch_group_count > 1 ∧ ¬ feature_group_count > 1 then batch_group_count
    else feature_group_count
  let trans_dn : ConvDimensionNumbers := ⟨dn.out_spec, t_rhs_spec, dn.lhs_spec⟩
  let new_padding := _conv_general_vjp_lhs_padding
    (takeIdx lhs_shape lhs_sdims) (takeIdx rhs_shape rhs_sdims) window_strides
    (takeIdx g.shape out_sdims) padding lhs_dilation rhs_dilation
  let revd_weights := lax_rev rhs2 rhs_sdims
  ⟨g, revd_weights, lhs_dilation, new_padding, window_strides, rhs_dilation, trans_dn, fgc2, 1⟩

/-- `_conv_general_dilated_transpose_lhs` from the source: emit the
transposed convolution (as an abstract node carrying the inferred shape)
and, when `batch_group_count > 1`, unfold the result's feature axis and
merge the group factor back into the batch axis. -/
def _conv_general_dilated_transpose_lhs {α : Type} [Inhabited α]
    (g rhs : NDArray α) (window_strides : List Nat) (padding : List (Int × Int))
    (lhs_dilation rhs_dilation : List Nat) (dn : ConvDimensionNumbers)
    (feature_group_count batch_group_count : Nat) (lhs_shape rhs_shape : List Nat) :
    Except ConvError (NDArray Unit) :=
  (conv_apply (_conv_general_dilated_transpose_lhs_call g rhs window_strides padding
    lhs_dilation rhs_dilation dn feature_group_count batch_group_count
    lhs_shape rhs_shape)).map
    (fun out =>
      if batch_group_count > 1 then
        _reshape_axis_into (dn.lhs_spec.getD 1 0) (dn.lhs_spec.getD 0 0)
          (_reshape_axis_out_of (dn.lhs_spec.getD 1 0) batch_group_count out)
      else out)

/-- `_conv_general_dilated_transpose_rhs` from the source: `None` (no
cotangent) when the upstream gradient has zero total size (`np.size(g) == 0`),
otherwise the convolution of the original lhs against `g` with roles,
dilations and group counts swapped. -/
def _conv_general_dilated_transpose_rhs {α β : Type} [Inhabited α] [Inhabited β]
    (g : NDArray α) (lhs : NDArray β) (window_strides : List Nat)
    (padding : List (Int × Int)) (lhs_dilation rhs_dilation : List Nat)
    (dn : ConvDimensionNumbers) (feature_group_count batch_group_count : Nat)
    (lhs_shape rhs_shape : List Nat) : Except ConvError (Option (NDArray Unit)) :=
  if g.shape.prod = 0 then .ok none
  else
    let lhs_sdims := _conv_sdims dn.lhs_spec
    let rhs_sdims := _conv_sdims dn.rhs_spec
    let out_sdims := _conv_sdims dn.out_spec
    let lhs_trans := _conv_spec_transpose dn.lhs_spec
    let rhs_trans := _conv_spec_transpose dn.rhs_spec
    let out_trans := _conv_spec_transpose dn.out_spec
    let fgc2 := if batch_group_count > 1 then batch_group_count
      else if feature_group_count > 1 then 1 else feature_group_count
    let bgc2 := if batch_group_count > 1 then 1
      else if feature_group_count > 1 then feature_group_count else batch_group_count
    let trans_dn : ConvDimensionNumbers := ⟨lhs_trans, out_trans, rhs_trans⟩
    let new_padding := _conv_general_vjp_rhs_padding
      (takeIdx lhs_shape lhs_sdims) (takeIdx rhs_shape rhs_sdims) window_strides
      (takeIdx g.shape out_sdims) padding lhs_dilation rhs_dilation
    (conv_apply ⟨lhs, g, rhs_dilation, new_padding, lhs_dilation, window_strides,
      trans_dn, fgc2, bgc2⟩).map some

/-! ### Vectorized batching rule -/

/-- `_conv_general_dilated_batch_rule` from the source (the rule is invoked
only when at least one operand is batched; the impossible neither-batched
case yields `none`.  The source `assert`s equality of the two batch sizes in
the both-batched case; the theorems carry that equality as a hypothesis). -/
def _conv_general_dilated_batch_rule {α β : Type} [Inhabited α] [Inhabited β]
    (lhs : NDArray α) (rhs : NDArray β) (lhs_bdim rhs_bdim : Option Nat)
    (window_strides : List Nat) (padding : List (Int × Int))
    (lhs_dilation rhs_dilation : List Nat) (dn : ConvDimensionNumbers)
    (feature_group_count batch_group_count : Nat) :
    Except ConvError (Option (NDArray Unit × Nat)) :=
  match lhs_bdim, rhs_bdim with
  | some lb, some rb =>
      let k := lhs.shape.getD lb 0
      let folded :=
        if batch_group_count > 1 then
          (_reshape_axis_into lb (dn.lhs_spec.getD 0 0) lhs, feature_group_count,
            batch_group_count * k)
        else
          (_reshape_axis_into lb (dn.lhs_spec.getD 1 0) lhs, feature_group_count * k,
            batch_group_count)
      let new_rhs := _reshape_axis_into rb (dn.rhs_spec.getD 0 0) rhs
      (conv_apply ⟨folded.1, new_rhs, window_strides, padding, lhs_dilation, rhs_dilation,
        dn, folded.2.1, folded.2.2⟩).map
        (fun out => some (_reshape_axis_out_of (dn.out_spec.getD 1 0) k out,
          dn.out_spec.getD 1 0))
  | some lb, none =>
      if batch_group_count = 1 then
        let new_lhs := _reshape_axis_into lb (dn.lhs_spec.getD 0 0) lhs
        (conv_apply ⟨new_lhs, rhs, window_strides, padding, lhs_dilation, rhs_dilation,
          dn, feature_group_count, 1⟩).map
          (fun out => some (_reshape_axis_out_of (dn.out_spec.getD 0 0)
            (lhs.shape.getD lb 0) out, dn.out_spec.getD 0 0))
      else
        let new_lhs := _reshape_axis_out_of
          (dn.lhs_spec.getD 0 0 + (if lb ≤ dn.lhs_spec.getD 0 0 then 1 else 0))
          batch_group_count lhs
        let new_lhs := _reshape_axis_into
          (lb + (if dn.lhs_spec.getD 0 0 < lb then 1 else 0))
          (dn.lhs_spec.getD 0 0 + 1) new_lhs
        let new_lhs := _reshape_axis_into (dn.lhs_spec.getD 0 0) (dn.lhs_spec.getD 0 0) new_lhs
        (conv_apply ⟨new_lhs, rhs, window_strides, padding, lhs_dilation, rhs_dilation,
          dn, feature_group_count, batch_group_count⟩).map
          (fun out => some (_reshape_axis_out_of (dn.out_spec.getD 0 0)
            (lhs.shape.getD lb 0) out, dn.out_spec.getD 0 0))
  | none, some rb =>
      if feature_group_count = 1 ∧ batch_group_count = 1 then
        let new_rhs := _reshape_axis_into rb (dn.rhs_spec.getD 0 0) rhs
        (conv_apply ⟨lhs, new_rhs, window_strides, padding, lhs_dilation, rhs_dilation,
          dn, feature_group_count, batch_group_count⟩).map
          (fun out => some (_reshape_axis_out_of (dn.out_spec.getD 1 0)
            (rhs.shape.getD rb 0) out, dn.out_spec.getD 1 0))
      else
        let group_count := if feature_group_count > 1 then feature_group_count
          else batch_group_count
        let new_rhs := _reshape_axis_out_of
          (dn.rhs_spec.getD 0 0 + (if rb ≤ dn.rhs_spec.getD 0 0 then 1 else 0))
          group_count rhs
        let new_rhs := _reshape_axis_into
          (rb + (if dn.rhs_spec.getD 0 0 < rb then 1 else 0))
          (dn.rhs_spec.getD 0 0 + 1) new_rhs
        let new_rhs := _reshape_axis_into (dn.rhs_spec.getD 0 0) (dn.rhs_spec.getD 0 0) new_rhs
        (conv_apply ⟨lhs, new_rhs, window_strides, padding, lhs_dilation, rhs_dilation,
          dn, feature_group_count, batch_group_count⟩).map
          (fun out =>
            let out := _reshape_axis_out_of (dn.out_spec.getD 1 0) group_count out
            let out := _reshape_axis_out_of (dn.out_spec.getD 1 0 + 1)
              (rhs.shape.getD rb 0) out
            let out := _reshape_axis_into (dn.out_spec.getD 1 0) (dn.out_spec.getD 1 0 + 1) out
            some (out, dn.out_spec.getD 1 0))
  | none, none => .ok none

/-! ### Transposed-convolution padding and the canonicalizer -/

/-- The accepted symbolic padding mode strings. -/
inductive PadMode where
  | SAME
  | VALID
  deriving DecidableEq

/-- `_conv_transpose_padding` from the source (`np.ceil(pad_len / 2)` on an
integer `pad_len` is `(pad_len + 1).fdiv 2`). -/
def _conv_transpose_padding (k s : Int) (padding : PadMode) : Int × Int :=
  match padding with
  | .SAME =>
      let pad_len := k + s - 2
      let pad_a := if s > k - 1 then k - 1 else (pad_len + 1).fdiv 2
      (pad_a, pad_len - pad_a)
  | .VALID =>
      let pad_len := k + s - 2 + max (k - s) 0
      let pad_a := k - 1
      (pad_a, pad_len - pad_a)

/-- The per-axis padding list `conv_transpose` derives for a symbolic
padding mode: `_conv_transpose_padding` applied to each effective
(`rhs_dilation`-dilated) kernel size and stride. -/
def conv_transpose_pads (k_sdims : List Nat) (rhs_dilation : List Nat)
    (strides : List Nat) (mode : PadMode) : List (Int × Int) :=
  let effective_k_size := List.zipWith (fun (k r : Nat) => ((k : Int) - 1) * r + 1)
    k_sdims rhs_dilation
  List.zipWith (fun k s => _conv_transpose_padding k s mode) effective_k_size
    (strides.map (fun s => (s : Int)))

/-- Stable insertion into a list sorted by `key` (models Python's stable
`sorted`). -/
def insertSortedBy (key : Nat → Nat) (x : Nat) : List Nat → List Nat
  | [] => [x]
  | y :: rest => if key x ≤ key y then x :: y :: rest else y :: insertSortedBy key x rest

/-- Stable sort by `key` (models Python's `sorted`). -/
def sortByKey (key : Nat → Nat) : List Nat → List Nat
  | [] => []
  | x :: rest => insertSortedBy key x (sortByKey key rest)

/-- `getperm` from `conv_general_permutations`: the spatial positions of a
spec string, sorted (for the lhs/out strings) by where each spatial
character sits in the rhs string, prefixed by the positions of the two
reserved characters. -/
def getperm (rhs_spec spec : List Char) (pair : Char × Char) (sortSpatial : Bool) : List Nat :=
  let spatial := (List.range spec.length).filter
    (fun i => spec.getD i ' ' ≠ pair.1 ∧ spec.getD i ' ' ≠ pair.2)
  let spatial2 := if sortSpatial then
      sortByKey (fun i => rhs_spec.indexOf (spec.getD i ' ')) spatial
    else spatial
  spec.indexOf pair.1 :: spec.indexOf pair.2 :: spatial2

/-- `conv_general_permutations` from the source: validate the three spec
strings (reserved-character counts, duplicates, equal spatial-character
sets, in the source's order) and build the three permutations. -/
def conv_general_permutations (lhs_spec rhs_spec out_spec : List Char) :
    Except ConvError (List Nat × List Nat × List Nat) :=
  let lhs_char : Char × Char := ('N', 'C')
  let rhs_char : Char × Char := ('O', 'I')
  let out_char : Char × Char := ('N', 'C')
  let specOk := fun (spec : List Char) (pair : Char × Char) =>
    if ¬ (spec.count pair.1 = 1 ∧ spec.count pair.2 = 1) then
      some ConvError.dnumsCharCount
    else if ¬ spec.Nodup then some ConvError.dnumsDupChars
    else none
  match specOk lhs_spec lhs_char with
  | some e => .error e
  | none =>
    match specOk rhs_spec rhs_char with
    | some e => .error e
    | none =>
      match specOk out_spec out_char with
      | some e => .error e
      | none =>
        let spatialOf := fun (spec : List Char) (pair : Char × Char) =>
          spec.filter (fun c => c ≠ pair.1 ∧ c ≠ pair.2)
        let sameSet := fun (a b : List Char) => (∀ c ∈ a, c ∈ b) ∧ (∀ c ∈ b, c ∈ a)
        if ¬ (sameSet (spatialOf lhs_spec lhs_char) (spatialOf rhs_spec rhs_char) ∧
              sameSet (spatialOf rhs_spec rhs_char) (spatialOf out_spec out_char)) then
          .error .dnumsSpatialChars
        else
          .ok (getperm rhs_spec lhs_spec lhs_char true,
               getperm rhs_spec rhs_spec rhs_char false,
               getperm rhs_spec out_spec out_char true)

/-- The `dimension_numbers` argument forms accepted by
`conv_dimension_numbers` (`None`, a 3-tuple of strings, or an already
canonical value; non-string tuple elements are outside the model). -/
inductive ConvDimArg where
  | unspecified
  | strs (specs : List String)
  | canonical (dn : ConvDimensionNumbers)

/-- `conv_dimension_numbers` from the source. -/
def conv_dimension_numbers (lhs_shape rhs_shape : List Nat) (arg : ConvDimArg) :
    Except ConvError ConvDimensionNumbers :=
  match arg with
  | .canonical dn => .ok dn
  | .unspecified =>
      if lhs_shape.length ≠ rhs_shape.length then .error .ndimMismatch
      else
        let iota := List.range lhs_shape.length
        .ok ⟨iota, iota, iota⟩
  | .strs specs =>
      if lhs_shape.length ≠ rhs_shape.length then .error .ndimMismatch
      else if specs.length ≠ 3 then .error .dnumsTupleLength
      else if ¬ (∀ s ∈ specs, s.length = lhs_shape.length) then .error .dnumsEltLength
      else
        match conv_general_permutations (specs.getD 0 "").toList (specs.getD 1 "").toList
          (specs.getD 2 "").toList with
        | .error e => .error e
        | .ok (l, r, o) => .ok ⟨l, r, o⟩

/-! ### Public call surface -/

/-- A padding argument at the public call surface: a symbolic mode string or
explicit pairs. -/
inductive PaddingArg where
  | mode (m : PadMode)
  | explicit (pads : List (Int × Int))

/-- Modelled from the spec: `lax.padtype_to_pads` (not in the source file).
"VALID" gives all-zero pads; "SAME" gives per axis a total pad of
`max(0, (ceil(in/stride)-1)*stride + effective_kernel - in)`, split with the
extra unit (for an odd total) on the after side. -/
def padtype_to_pads (in_shape : List Nat) (effective_kernel : List Int)
    (strides : List Nat) (mode : PadMode) : List (Int × Int) :=
  match mode with
  | .VALID => in_shape.map (fun _ => ((0 : Int), (0 : Int)))
  | .SAME =>
      List.zipWith3 (fun (i : Nat) (k : Int) (s : Nat) =>
        let out : Int := ((i : Int) + s - 1).fdiv s
        let total : Int := max 0 ((out - 1) * s + k - i)
        (total.fdiv 2, total - total.fdiv 2))
        in_shape effective_kernel strides

/-- The resolved parameter set produced by the public call surface. -/
structure ResolvedConv where
  window_strides : List Nat
  padding : List (Int × Int)
  lhs_dilation : List Nat
  rhs_dilation : List Nat
  dimension_numbers : ConvDimensionNumbers
  feature_group_count : Nat
  batch_group_count : Nat
  deriving DecidableEq

/-- The argument-resolution part of `conv_general_dilated` from the source,
up to (but not including) binding the primitive: canonicalize the dimension
numbers, default absent dilations to ones, reject a symbolic padding mode
for a transposed (lhs-dilated) convolution, and resolve a symbolic mode to
explicit pairs against the effective kernel shape. -/
def conv_general_dilated_front (lhs_shape rhs_shape : List Nat) (window_strides : List Nat)
    (padding : PaddingArg) (lhs_dilation rhs_dilation : Option (List Nat))
    (dimension_numbers : ConvDimArg) (feature_group_count batch_group_count : Nat) :
    Except ConvError ResolvedConv :=
  match conv_dimension_numbers lhs_shape rhs_shape dimension_numbers with
  | .error e => .error e
  | .ok dnums =>
      let checkDil : Except ConvError (List Nat) :=
        match lhs_dilation with
        | none => .ok (List.replicate (lhs_shape.length - 2) 1)
        | some l =>
            match padding with
            | .mode _ =>
                if ¬ l.count 1 = l.length then .error .stringPaddingTransposedConv
                else .ok l
            | .explicit _ => .ok l
      match checkDil with
      | .error e => .error e
      | .ok ld =>
          let rd := rhs_dilation.getD (List.replicate (rhs_shape.length - 2) 1)
          let pads : List (Int × Int) :=
            match padding with
            | .explicit p => p
            | .mode m =>
                let rhs_sp := (takeIdx rhs_shape dnums.rhs_spec).drop 2
                let effective := List.zipWith (fun (k r : Nat) => ((k : Int) - 1) * r + 1)
                  rhs_sp rd
                padtype_to_pads ((takeIdx lhs_shape dnums.lhs_spec).drop 2) effective
                  window_strides m
          .ok ⟨window_strides, pads, ld, rd, dnums, feature_group_count, batch_group_count⟩

/-! ### getD access lemmas for the embedded shape algebra -/

theorem zipWith_getD_any {α β γ : Type} (f : α → β → γ) (a : List α) (b : List β) (i : Nat)
    (da : α) (db : β) (dc : γ) (hia : i < a.length) (hib : i < b.length) :
    (List.zipWith f a b).getD i dc = f (a.getD i da) (b.getD i db) := by
  have hz : i < (List.zipWith f a b).length := by
    rw [List.length_zipWith]; omega
  rw [List.getD_eq_getElem _ _ hz, List.getD_eq_getElem _ _ hia, List.getD_eq_getElem _ _ hib]
  simp

theorem map_getD_any {α β : Type} (f : α → β) (l : List α) (i : Nat) (da : α) (db : β)
    (hi : i < l.length) :
    (l.map f).getD i db = f (l.getD i da) := by
  rw [List.getD_eq_getElem _ _ (by simpa using hi), List.getElem_map,
    List.getD_eq_getElem _ _ hi]

theorem zipWith3_length {α β γ δ : Type} (f : α → β → γ → δ) :
    ∀ (a : List α) (b : List β) (c : List γ),
      (List.zipWith3 f a b c).length = min a.length (min b.length c.length)
  | [], b, c => by cases b <;> cases c <;> simp [List.zipWith3]
  | _ :: _, [], c => by cases c <;> simp [List.zipWith3]
  | _ :: _, _ :: _, [] => by simp [List.zipWith3]
  | a₀ :: a, b₀ :: b, c₀ :: c => by
      simp only [List.zipWith3, List.length_cons, zipWith3_length f a b c]
      omega

theorem zipWith3_getD_any {α β γ δ : Type} (f : α → β → γ → δ) :
    ∀ (a : List α) (b : List β) (c : List γ) (i : Nat) (da : α) (db : β) (dc : γ) (dd : δ),
      i < a.length → i < b.length → i < c.length →
      (List.zipWith3 f a b c).getD i dd = f (a.getD i da) (b.getD i db) (c.getD i dc)
  | a₀ :: a, b₀ :: b, c₀ :: c, i, da, db, dc, dd, ha, hb, hc => by
      cases i with
      | zero => rfl
      | succ n =>
          show (List.zipWith3 f a b c).getD n dd = _
          exact zipWith3_getD_any f a b c n da db dc dd (by simpa using ha)
            (by simpa using hb) (by simpa using hc)
  | [], _, _, i, _, _, _, _, ha, _, _ => by simp at ha
  | _ :: _, [], _, i, _, _, _, _, _, hb, _ => by simp at hb
  | _ :: _, _ :: _, [], i, _, _, _, _, _, _, hc => by simp at hc

theorem getD_append_left_any {α : Type} (l1 l2 : List α) (k : Nat) (d : α)
    (hk : k < l1.length) : (l1 ++ l2).getD k d = l1.getD k d := by
  rw [List.getD_eq_getElem _ _ (by simp; omega), List.getD_eq_getElem _ _ hk]
  exact List.getElem_append_left _

theorem getD_append_right_at {α : Type} (l1 l2 : List α) (i : Nat) (d : α) :
    (l1 ++ l2).getD (l1.length + i) d = l2.getD i d := by
  induction l1 with
  | nil => simp
  | cons a t ih => simpa [Nat.succ_add] using ih

theorem getD_replicate {α : Type} (n : Nat) (a : α) (k : Nat) (d : α) (hk : k < n) :
    (List.replicate n a).getD k d = a := by
  induction n generalizing k with
  | zero => omega
  | succ m ih =>
      cases k with
      | zero => rfl
      | succ j => exact ih j (by omega)

theorem dilate_one (d : Nat) : dilate d 1 = d := by
  cases d with
  | zero => rfl
  | succ n => simp [dilate]

/-- `_dilate_shape` keeps the length of the shape. -/
theorem dilate_shape_length (sh dil : List Nat) : (_dilate_shape sh dil).length = sh.length := by
  simp only [_dilate_shape, List.length_zipWith, List.length_append, List.length_replicate]
  omega

/-- Batch/feature axes (indices below the left-padding) are unchanged by
`_dilate_shape`. -/
theorem dilate_shape_getD_head (sh dil : List Nat) (k : Nat) (h2 : sh.length = dil.length + 2)
    (hk : k < 2) : (_dilate_shape sh dil).getD k 0 = sh.getD k 0 := by
  rw [_dilate_shape, zipWith_getD_any dilate sh _ k 0 0 0 (by omega) (by simp; omega)]
  rw [getD_append_left_any _ _ _ _ (by simp; omega)]
  rw [getD_replicate _ _ _ _ (by omega)]
  exact dilate_one _

/-- Spatial axes (index `2 + i`) are dilated by the `i`-th dilation. -/
theorem dilate_shape_getD_spatial (sh dil : List Nat) (i : Nat)
    (h2 : sh.length = dil.length + 2) (hi : i < dil.length) :
    (_dilate_shape sh dil).getD (2 + i) 0 = dilate (sh.getD (2 + i) 0) (dil.getD i 0) := by
  rw [_dilate_shape, zipWith_getD_any dilate sh _ (2 + i) 0 0 0 (by omega) (by simp; omega)]
  congr 1
  have hrep : (List.replicate (sh.length - dil.length) (1 : Nat)).length = 2 := by
    simp
    omega
  calc (List.replicate (sh.length - dil.length) 1 ++ dil).getD (2 + i) 0
      = (List.replicate (sh.length - dil.length) 1 ++ dil).getD
          ((List.replicate (sh.length - dil.length) (1 : Nat)).length + i) 0 := by
        rw [hrep]
    _ = dil.getD i 0 := getD_append_right_at _ _ _ _

theorem getD_cons_two {α : Type} (a b : α) (t : List α) (i : Nat) (d : α) :
    (a :: b :: t).getD (2 + i) d = t.getD i d := by
  rw [show 2 + i = i + 1 + 1 from by omega]
  rfl

/-! ### Claim theorems -/

/-- C7 counterexample: the transposed-convolution padding calculator at
kernel size 3, stride 2, mode "SAME" returns `(2, 1)`, not the claimed
`(1, 0)`: `pad_len = 3`, the stride is not greater than `kernel - 1`, so
`pad_before = ceil(3/2) = 2` and `pad_after = 1`. -/
theorem C7_counterexample :
    _conv_transpose_padding 3 2 PadMode.SAME = (2, 1) ∧
    _conv_transpose_padding 3 2 PadMode.SAME ≠ ((1 : Int), (0 : Int)) := by
  constructor
  · rfl
  · decide

/-- C7 (amended): `_conv_transpose_padding(3, 2, "SAME") = (2, 1)`, and
`conv_transpose` with strides `(2, 2)`, an (undilated) size-3 kernel and
symbolic "SAME" padding derives `(2, 1)` for each spatial axis. -/
theorem C7_transpose_padding_value :
    _conv_transpose_padding 3 2 PadMode.SAME = (2, 1) ∧
    conv_transpose_pads [3, 3] [1, 1] [2, 2] PadMode.SAME = [(2, 1), (2, 1)] := by
  constructor
  · rfl
  · rfl

/-- C8: the canonicalizer returns an already-canonical `ConvDimensionNumbers`
unchanged, and on 4-dimensional shapes the string triple
`("NCHW", "OIHW", "NCHW")` canonicalizes to the same permutations as the
`None` default — the identity permutation for all three specs. -/
theorem C8_canonicalizer_roundtrip :
    (∀ (lhs rhs : List Nat) (dn : ConvDimensionNumbers),
      conv_dimension_numbers lhs rhs (ConvDimArg.canonical dn) = Except.ok dn) ∧
    (∀ lhs rhs : List Nat, lhs.length = 4 → rhs.length = 4 →
      conv_dimension_numbers lhs rhs (ConvDimArg.strs ["NCHW", "OIHW", "NCHW"]) =
        conv_dimension_numbers lhs rhs ConvDimArg.unspecified ∧
      conv_dimension_numbers lhs rhs ConvDimArg.unspecified =
        Except.ok ⟨[0, 1, 2, 3], [0, 1, 2, 3], [0, 1, 2, 3]⟩) := by
  refine ⟨fun lhs rhs dn => rfl, fun lhs rhs hl hr => ⟨?_, ?_⟩⟩
  · simp only [conv_dimension_numbers]
    rw [hl, hr]
    rfl
  · simp only [conv_dimension_numbers]
    rw [hl, hr]
    rfl

/-- C8 witness at concrete shapes. -/
theorem C8_canonicalizer_roundtrip_witness :
    conv_dimension_numbers [1, 3, 8, 8] [4, 3, 3, 3]
        (ConvDimArg.canonical ⟨[0, 3, 1, 2], [3, 2, 0, 1], [0, 3, 1, 2]⟩) =
      Except.ok ⟨[0, 3, 1, 2], [3, 2, 0, 1], [0, 3, 1, 2]⟩ ∧
    conv_dimension_numbers [1, 3, 8, 8] [4, 3, 3, 3]
        (ConvDimArg.strs ["NCHW", "OIHW", "NCHW"]) =
      conv_dimension_numbers [1, 3, 8, 8] [4, 3, 3, 3] ConvDimArg.unspecified :=
  ⟨C8_canonicalizer_roundtrip.1 _ _ _,
   (C8_canonicalizer_roundtrip.2 [1, 3, 8, 8] [4, 3, 3, 3] rfl rfl).1⟩

/-- C6 counterexample: a valid rank-3 descriptor with lhs batch size 0: the
forward output shape is `(0, 1, 4)`, whose single spatial axis has nonzero
size 4, yet the gradient-w.r.t.-rhs rule still reports the structurally
absent "no gradient" result (it tests the total size, not the spatial
sizes). -/
theorem C6_counterexample :
    _conv_general_dilated_shape_rule [0, 1, 5] [1, 1, 2] [1] [(0, 0)] [1] [1]
      ⟨[0, 1, 2], [0, 1, 2], [0, 1, 2]⟩ 1 1 = Except.ok [0, 1, 4] ∧
    _conv_general_dilated_transpose_rhs
      (⟨[0, 1, 4], []⟩ : NDArray Unit) (⟨[0, 1, 5], []⟩ : NDArray Unit)
      [1] [(0, 0)] [1] [1] ⟨[0, 1, 2], [0, 1, 2], [0, 1, 2]⟩ 1 1 [0, 1, 5] [1, 1, 2] =
      Except.ok none ∧
    (∀ i ∈ _conv_sdims [0, 1, 2], ([0, 1, 4] : List Nat).getD i 0 ≠ 0) := by
  refine ⟨rfl, rfl, by decide⟩

theorem except_map_some_ne_ok_none {ε σ : Type} (r : Except ε σ) :
    r.map (fun v => (some v : Option σ)) ≠ Except.ok (none : Option σ) := by
  cases r <;> simp [Except.map]

/-- C6 (amended): the gradient-w.r.t.-rhs rule returns the structurally
absent "no gradient" result iff the upstream gradient has zero size along
SOME axis (zero total size) — any axis, not only a spatial one; otherwise it
never returns "no gradient". -/
theorem C6_no_gradient_iff {α β : Type} [Inhabited α] [Inhabited β]
    (g : NDArray α) (lhs : NDArray β) (ws : List Nat) (pads : List (Int × Int))
    (ld rd : List Nat) (dn : ConvDimensionNumbers) (fgc bgc : Nat)
    (lhs_shape rhs_shape : List Nat) :
    _conv_general_dilated_transpose_rhs g lhs ws pads ld rd dn fgc bgc lhs_shape rhs_shape =
        Except.ok none ↔
      ∃ d ∈ g.shape, d = 0 := by
  unfold _conv_general_dilated_transpose_rhs
  by_cases hp : g.shape.prod = 0
  · rw [if_pos hp]
    rw [List.prod_eq_zero_iff] at hp
    exact ⟨fun _ => ⟨0, hp, rfl⟩, fun _ => rfl⟩
  · rw [if_neg hp]
    constructor
    · intro h
      exact absurd h (except_map_some_ne_ok_none _)
    · rintro ⟨d, hd, rfl⟩
      exact absurd (List.prod_eq_zero hd) hp

/-- C6 witness: the amended iff applied at the counterexample input. -/
theorem C6_no_gradient_iff_witness :
    _conv_general_dilated_transpose_rhs
      (⟨[0, 1, 4], []⟩ : NDArray Unit) (⟨[0, 1, 5], []⟩ : NDArray Unit)
      [1] [(0, 0)] [1] [1] ⟨[0, 1, 2], [0, 1, 2], [0, 1, 2]⟩ 1 1 [0, 1, 5] [1, 1, 2] =
      Except.ok none :=
  (C6_no_gradient_iff (⟨[0, 1, 4], []⟩ : NDArray Unit) (⟨[0, 1, 5], []⟩ : NDArray Unit)
    [1] [(0, 0)] [1] [1] ⟨[0, 1, 2], [0, 1, 2], [0, 1, 2]⟩ 1 1 [0, 1, 5] [1, 1, 2]).mpr
    ⟨0, by decide, rfl⟩

/-- Modelled from the spec: the claim's validation order for the shape rule
— equal rank first; then both group counts positive and not both greater
than 1; then lhs feature divisibility with its quotient check; then rhs
output-feature divisibility by both group counts; then lhs batch
divisibility; then the spatial/stride rank check — reporting the first
violated condition. -/
def claimed_first_error (lhs rhs : List Nat) (ws : List Nat) (dn : ConvDimensionNumbers)
    (fgc bgc : Nat) : Option ConvError :=
  firstFail
    [ (decide (lhs.length ≠ rhs.length), .rankMismatch),
      (decide (¬ fgc > 0), .fgcNonpos),
      (decide (¬ bgc > 0), .bgcNonpos),
      (decide (bgc > 1 ∧ fgc > 1), .bothGroupCountsGtOne),
      (decide (lhs.getD (dn.lhs_spec.getD 1 0) 0 % fgc ≠ 0), .fgcNotDividesLhsFeature),
      (decide (lhs.getD (dn.lhs_spec.getD 1 0) 0 / fgc ≠ rhs.getD (dn.rhs_spec.getD 1 0) 0),
        .lhsFeatureQuotientMismatch),
      (decide (rhs.getD (dn.rhs_spec.getD 0 0) 0 % fgc ≠ 0), .rhsOutFeatureNotMultipleFgc),
      (decide (rhs.getD (dn.rhs_spec.getD 0 0) 0 % bgc ≠ 0), .rhsOutFeatureNotMultipleBgc),
      (decide (lhs.getD (dn.lhs_spec.getD 0 0) 0 % bgc ≠ 0), .bgcNotDividesLhsBatch),
      (decide ((_conv_sdims dn.rhs_spec).length ≠ ws.length), .windowStridesRankMismatch) ]

/-- C5 counterexample: with `feature_group_count = 2`, `batch_group_count =
2` and an lhs feature size of 3, the claim's order predicts the
"not both > 1" error, but the code raises the feature-divisibility error
first (it checks lhs feature divisibility before it ever looks at
`batch_group_count`). -/
theorem C5_counterexample :
    claimed_first_error [1, 3, 5] [2, 2, 2] [1] ⟨[0, 1, 2], [0, 1, 2], [0, 1, 2]⟩ 2 2 =
      some ConvError.bothGroupCountsGtOne ∧
    _conv_general_dilated_shape_rule [1, 3, 5] [2, 2, 2] [1] [(0, 0)] [1] [1]
      ⟨[0, 1, 2], [0, 1, 2], [0, 1, 2]⟩ 2 2 =
      Except.error ConvError.fgcNotDividesLhsFeature ∧
    ConvError.bothGroupCountsGtOne ≠ ConvError.fgcNotDividesLhsFeature := by
  refine ⟨rfl, rfl, by decide⟩

/-- C5 (amended): the rule raises an error exactly when one of the checks
fires, and the error is the first in the CODE's order — equal rank;
`feature_group_count` positive; lhs feature divisibility; quotient equals
rhs input-feature size; rhs output-feature divisible by
`feature_group_count`; `batch_group_count` positive; (when
`batch_group_count > 1`) lhs batch divisibility; rhs output-feature
divisible by `batch_group_count`; not both group counts greater than 1;
spatial count equals `len(window_strides)`; and finally the explicit-pads
count check — otherwise it returns the computed shape. -/
theorem C5_check_order (lhs rhs : List Nat) (ws : List Nat) (pads : List (Int × Int))
    (ld rd : List Nat) (dn : ConvDimensionNumbers) (fgc bgc : Nat) :
    _conv_general_dilated_shape_rule lhs rhs ws pads ld rd dn fgc bgc =
      match firstFail (shape_rule_checks lhs rhs ws pads ld rd dn fgc bgc) with
      | some e => Except.error e
      | none => Except.ok (shape_rule_out lhs rhs ws pads ld rd dn bgc) :=
  shape_rule_eq_firstFail lhs rhs ws pads ld rd dn fgc bgc

/-- C9: the batching rule's axis unfold inverts its fold exactly.  Merging
the split pair back at the same position (`_reshape_axis_into src src` after
`_reshape_axis_out_of src size1`) recovers the array, and for a fold to a
position `dst`, splitting the merged axis `dst` by the factor
`x.shape[src]` recovers the entries of `x` with the folded axis outermost at
position `dst` — the transpose of `x` moving axis `src` to position `dst`. -/
theorem C9_reshape_fold_unfold {α : Type} [Inhabited α] (x : NDArray α) (src dst size1 : Nat)
    (hwf : x.wf) (hsrc : src < x.shape.length) (hpos : 0 < size1)
    (hdvd : size1 ∣ x.shape.getD src 0) (hdst : dst < x.shape.length - 1)
    (hspos : 0 < x.shape.getD src 0) :
    _reshape_axis_into src src (_reshape_axis_out_of src size1 x) = x ∧
    _reshape_axis_out_of dst (x.shape.getD src 0) (_reshape_axis_into src dst x) =
      transpose (((List.range x.shape.length).filter (fun i => i ≠ src)).insertIdx dst src)
        x :=
  ⟨reshape_into_out_of_self x src size1 hwf hsrc hpos hdvd,
   reshape_out_of_into x src dst hsrc hdst hspos⟩

/-- C9 witness at a concrete 2×3×4 array. -/
theorem C9_reshape_fold_unfold_witness :
    _reshape_axis_into 0 0 (_reshape_axis_out_of 0 2 (⟨[2, 3, 4], List.range 24⟩ : NDArray Nat)) =
      (⟨[2, 3, 4], List.range 24⟩ : NDArray Nat) ∧
    _reshape_axis_out_of 1
        ((⟨[2, 3, 4], List.range 24⟩ : NDArray Nat).shape.getD 0 0)
        (_reshape_axis_into 0 1 (⟨[2, 3, 4], List.range 24⟩ : NDArray Nat)) =
      transpose
        (((List.range (⟨[2, 3, 4], List.range 24⟩ : NDArray Nat).shape.length).filter
          (fun i => i ≠ 0)).insertIdx 1 0)
        (⟨[2, 3, 4], List.range 24⟩ : NDArray Nat) :=
  C9_reshape_fold_unfold (⟨[2, 3, 4], List.range 24⟩ : NDArray Nat) 0 1 2
    rfl (by decide) (by decide) (by decide) (by decide) (by decide)

/-- C10: at the public call surface with a symbolic padding mode, once the
dimension numbers canonicalize, construction fails with the
transposed-convolution rejection exactly when the caller passed an
`lhs_dilation` with an entry different from 1; when every entry is 1 the
symbolic mode is resolved to explicit pairs and the call succeeds. -/
theorem C10_string_padding_lhs_dilation
    (lhs_shape rhs_shape : List Nat) (ws : List Nat) (m : PadMode)
    (ld rd : Option (List Nat)) (dnarg : ConvDimArg) (fgc bgc : Nat)
    (dnums : ConvDimensionNumbers)
    (hdn : conv_dimension_numbers lhs_shape rhs_shape dnarg = Except.ok dnums) :
    (conv_general_dilated_front lhs_shape rhs_shape ws (PaddingArg.mode m) ld rd dnarg
        fgc bgc = Except.error ConvError.stringPaddingTransposedConv ↔
      ∃ l, ld = some l ∧ ∃ d ∈ l, d ≠ 1) ∧
    (∀ l, ld = some l → (∀ d ∈ l, d = 1) →
      conv_general_dilated_front lhs_shape rhs_shape ws (PaddingArg.mode m) ld rd dnarg
          fgc bgc =
        Except.ok ⟨ws,
          padtype_to_pads ((takeIdx lhs_shape dnums.lhs_spec).drop 2)
            (List.zipWith (fun (k r : Nat) => ((k : Int) - 1) * r + 1)
              ((takeIdx rhs_shape dnums.rhs_spec).drop 2)
              (rd.getD (List.replicate (rhs_shape.length - 2) 1)))
            ws m,
          l, rd.getD (List.replicate (rhs_shape.length - 2) 1), dnums, fgc, bgc⟩) := by
  have hcount : ∀ l : List Nat, (¬ l.count 1 = l.length) ↔ ∃ d ∈ l, d ≠ 1 := by
    intro l
    rw [List.count_eq_length]
    constructor
    · intro h
      by_contra hc
      push_neg at hc
      exact h (fun b hb => (hc b hb).symm)
    · rintro ⟨d, hd, hne⟩ h
      exact hne (h d hd).symm
  constructor
  · cases ld with
    | none =>
        simp only [conv_general_dilated_front, hdn]
        constructor
        · intro h
          exact absurd h (by simp)
        · rintro ⟨l, hl, -⟩
          exact absurd hl (by simp)
    | some l =>
        simp only [conv_general_dilated_front, hdn]
        by_cases hc : ¬ l.count 1 = l.length
        · rw [if_pos hc]
          simp only [true_iff, Except.error.injEq]
          exact ⟨l, rfl, (hcount l).mp hc⟩
        · rw [if_neg hc]
          constructor
          · intro h
            exact absurd h (by simp)
          · rintro ⟨l2, hl2, d, hd, hne⟩
            rw [Option.some.injEq] at hl2
            subst hl2
            exact absurd ((hcount l).mpr ⟨d, hd, hne⟩) (by simpa using hc)
  · intro l hl hall
    subst hl
    simp only [conv_general_dilated_front, hdn]
    rw [if_neg (by
      rw [hcount l]
      push_neg
      intro d hd
      exact hall d hd)]

/-- C10 witness: symbolic "SAME" with `lhs_dilation = (2, 2)` is rejected at
construction. -/
theorem C10_string_padding_lhs_dilation_witness :
    conv_general_dilated_front [1, 3, 8, 8] [4, 3, 3, 3] [1, 1] (PaddingArg.mode PadMode.SAME)
      (some [2, 2]) none (ConvDimArg.strs ["NCHW", "OIHW", "NCHW"]) 1 1 =
      Except.error ConvError.stringPaddingTransposedConv :=
  ((C10_string_padding_lhs_dilation [1, 3, 8, 8] [4, 3, 3, 3] [1, 1] PadMode.SAME
    (some [2, 2]) none (ConvDimArg.strs ["NCHW", "OIHW", "NCHW"]) 1 1
    ⟨[0, 1, 2, 3], [0, 1, 2, 3], [0, 1, 2, 3]⟩ rfl).1).mpr
    ⟨[2, 2], rfl, 2, by decide, by decide⟩

theorem firstFail_none_all : ∀ {L : List (Bool × ConvError)}, firstFail L = none →
    ∀ p ∈ L, p.1 = false
  | [], _, p, hp => by simp at hp
  | (b, e) :: t, h, p, hp => by
      rw [firstFail] at h
      by_cases hb : b = true
      · rw [if_pos hb] at h
        exact absurd h (by simp)
      · have hb' : b = false := by revert hb; cases b <;> simp
        rcases List.mem_cons.mp hp with rfl | hmem
        · exact hb'
        · exact firstFail_none_all (by rwa [if_neg hb] at h) p hmem

/-- C1: on the success path of the shape rule, the inferred output shape
carries, at the out-spec batch position, `lhs_batch / batch_group_count`; at
the out-spec feature position, the rhs output-feature size; and at the
out-spec position of spatial axis `i`, the clamped size
`toNat(floor((dilated_padded_input_i - dilated_kernel_i) / stride_i) + 1)`. -/
theorem C1_output_shape
    (lhs rhs ws : List Nat) (pads : List (Int × Int)) (ld rd : List Nat)
    (dn : ConvDimensionNumbers) (fgc bgc : Nat) (s : List Nat)
    (hl : IsSpec dn.lhs_spec (ws.length + 2)) (hr : IsSpec dn.rhs_spec (ws.length + 2))
    (ho : IsSpec dn.out_spec (ws.length + 2))
    (hpads : pads.length = ws.length) (hld : ld.length = ws.length)
    (hrd : rd.length = ws.length)
    (hok : _conv_general_dilated_shape_rule lhs rhs ws pads ld rd dn fgc bgc = Except.ok s) :
    s.getD (dn.out_spec.getD 0 0) 0 = lhs.getD (dn.lhs_spec.getD 0 0) 0 / bgc ∧
    s.getD (dn.out_spec.getD 1 0) 0 = rhs.getD (dn.rhs_spec.getD 0 0) 0 ∧
    ∀ i, i < ws.length →
      s.getD (dn.out_spec.getD (2 + i) 0) 0 =
        (((dilate (lhs.getD (dn.lhs_spec.getD (2 + i) 0) 0) (ld.getD i 0) : Int) +
            (pads.getD i (0, 0)).1 + (pads.getD i (0, 0)).2 -
            (dilate (rhs.getD (dn.rhs_spec.getD (2 + i) 0) 0) (rd.getD i 0) : Int)).fdiv
          (ws.getD i 0 : Int) + 1).toNat := by
  rw [shape_rule_eq_firstFail] at hok
  cases hF : firstFail (shape_rule_checks lhs rhs ws pads ld rd dn fgc bgc) with
  | some e =>
      rw [hF] at hok
      exact Except.noConfusion hok
  | none =>
      rw [hF] at hok
      have hall := firstFail_none_all hF
      have hbgc : 0 < bgc := by
        have h6 := hall (decide (¬ bgc > 0), ConvError.bgcNonpos)
          (by simp [shape_rule_checks])
        have h6' : ¬ ¬ bgc > 0 := by simpa using h6
        omega
      injection hok with hs
      subst hs
      simp only [shape_rule_out]
      have hAlen : (_dilate_shape (takeIdx lhs dn.lhs_spec) ld).length = ws.length + 2 := by
        rw [dilate_shape_length, takeIdx_length, hl.1]
      have hBlen : (_dilate_shape (takeIdx rhs dn.rhs_spec) rd).length = ws.length + 2 := by
        rw [dilate_shape_length, takeIdx_length, hr.1]
      have hA2 : (takeIdx lhs dn.lhs_spec).length = ld.length + 2 := by
        rw [takeIdx_length, hl.1, hld]
      have hB2 : (takeIdx rhs dn.rhs_spec).length = rd.length + 2 := by
        rw [takeIdx_length, hr.1, hrd]
      have hA0 : (_dilate_shape (takeIdx lhs dn.lhs_spec) ld).getD 0 0 =
          lhs.getD (dn.lhs_spec.getD 0 0) 0 := by
        rw [dilate_shape_getD_head _ _ _ hA2 (by omega)]
        rw [takeIdx_getD _ _ _ (by rw [hl.1]; omega)]
      have hB0 : (_dilate_shape (takeIdx rhs dn.rhs_spec) rd).getD 0 0 =
          rhs.getD (dn.rhs_spec.getD 0 0) 0 := by
        rw [dilate_shape_getD_head _ _ _ hB2 (by omega)]
        rw [takeIdx_getD _ _ _ (by rw [hr.1]; omega)]
      refine ⟨?_, ?_, ?_⟩
      · rw [takeIdx_argsort_getD ho _ (show (0 : Nat) < ws.length + 2 from by omega)]
        rw [List.getD_cons_zero]
        by_cases hb1 : bgc > 1
        · rw [if_pos hb1, hA0]
        · rw [if_neg hb1, hA0, show bgc = 1 from by omega, Nat.div_one]
      · rw [takeIdx_argsort_getD ho _ (show (1 : Nat) < ws.length + 2 from by omega)]
        rw [List.getD_cons_succ, List.getD_cons_zero]
        exact hB0
      · intro i hi
        rw [takeIdx_argsort_getD ho _ (show 2 + i < ws.length + 2 from by omega)]
        rw [getD_cons_two]
        have hziplen : (List.zipWith (fun (d : Nat) (p : Int × Int) => (d : Int) + p.1 + p.2)
            ((_dilate_shape (takeIdx lhs dn.lhs_spec) ld).drop 2) pads).length = ws.length := by
          rw [List.length_zipWith, List.length_drop, hAlen, hpads]
          omega
        have hssen : (stride_shape
            (List.zipWith (fun (d : Nat) (p : Int × Int) => (d : Int) + p.1 + p.2)
              ((_dilate_shape (takeIdx lhs dn.lhs_spec) ld).drop 2) pads)
            ((_dilate_shape (takeIdx rhs dn.rhs_spec) rd).drop 2) ws).length = ws.length := by
          rw [show (stride_shape _ _ _).length = _ from zipWith3_length _ _ _ _]
          rw [hziplen, List.length_drop, hBlen]
          omega
        rw [map_getD_any Int.toNat _ i 0 0 (by rw [hssen]; exact hi)]
        unfold stride_shape
        rw [zipWith3_getD_any _ _ _ _ i 0 0 0 0 (by rw [hziplen]; exact hi)
          (by rw [List.length_drop, hBlen]; omega) hi]
        rw [zipWith_getD_any _ _ _ i 0 (0, 0) 0
          (by rw [List.length_drop, hAlen]; omega) (by rw [hpads]; exact hi)]
        rw [getD_drop _ _ _ (by rw [hAlen]; omega)]
        rw [getD_drop _ _ _ (by rw [hBlen]; omega)]
        rw [dilate_shape_getD_spatial _ _ _ hA2 (by omega)]
        rw [dilate_shape_getD_spatial _ _ _ hB2 (by omega)]
        rw [takeIdx_getD _ _ _ (by rw [hl.1]; omega)]
        rw [takeIdx_getD _ _ _ (by rw [hr.1]; omega)]

/-- C1 witness: the spec's concrete scenario, with "SAME" resolved to the
explicit pads `(1,1)` per axis. -/
theorem C1_output_shape_witness :
    _conv_general_dilated_shape_rule [1, 3, 8, 8] [4, 3, 3, 3] [1, 1] [(1, 1), (1, 1)]
      [1, 1] [1, 1] ⟨[0, 1, 2, 3], [0, 1, 2, 3], [0, 1, 2, 3]⟩ 1 1 =
      Except.ok [1, 4, 8, 8] ∧
    ([1, 4, 8, 8] : List Nat).getD 0 0 = 1 / 1 ∧
    ([1, 4, 8, 8] : List Nat).getD 1 0 = 4 := by
  refine ⟨rfl, ?_, ?_⟩
  · exact (C1_output_shape [1, 3, 8, 8] [4, 3, 3, 3] [1, 1] [(1, 1), (1, 1)] [1, 1] [1, 1]
      ⟨[0, 1, 2, 3], [0, 1, 2, 3], [0, 1, 2, 3]⟩ 1 1 [1, 4, 8, 8]
      (by decide) (by decide) (by decide) rfl rfl rfl rfl).1
  · exact (C1_output_shape [1, 3, 8, 8] [4, 3, 3, 3] [1, 1] [(1, 1), (1, 1)] [1, 1] [1, 1]
      ⟨[0, 1, 2, 3], [0, 1, 2, 3], [0, 1, 2, 3]⟩ 1 1 [1, 4, 8, 8]
      (by decide) (by decide) (by decide) rfl rfl rfl rfl).2.1

/-- `_dilate_shape` with a dilation list of the same length as the shape
dilates every axis. -/
theorem dilate_shape_getD_eqlen (sh dil : List Nat) (i : Nat) (heq : sh.length = dil.length)
    (hi : i < sh.length) :
    (_dilate_shape sh dil).getD i 0 = dilate (sh.getD i 0) (dil.getD i 0) := by
  rw [_dilate_shape, zipWith_getD_any dilate sh _ i 0 0 0 hi (by simp; omega)]
  congr 1
  have h0 : sh.length - dil.length = 0 := by omega
  rw [h0]
  rfl

/-- Per-axis characterization of `_conv_general_vjp_lhs_padding`. -/
theorem vjp_lhs_padding_getD (inS winS ws outS : List Nat) (pads : List (Int × Int))
    (ld rd : List Nat) (i : Nat)
    (hin : inS.length = ws.length) (hwin : winS.length = ws.length)
    (hout : outS.length = ws.length) (hpads : pads.length = ws.length)
    (hld : ld.length = ws.length) (hrd : rd.length = ws.length) (hi : i < ws.length) :
    (_conv_general_vjp_lhs_padding inS winS ws outS pads ld rd).getD i (0, 0) =
      ((dilate (winS.getD i 0) (rd.getD i 0) : Int) - (pads.getD i (0, 0)).1 - 1,
       ((dilate (inS.getD i 0) (ld.getD i 0) : Int) +
          (dilate (winS.getD i 0) (rd.getD i 0) : Int) - 1 -
          (dilate (outS.getD i 0) (ws.getD i 0) : Int)) -
         ((dilate (winS.getD i 0) (rd.getD i 0) : Int) - (pads.getD i (0, 0)).1 - 1)) := by
  have hLD : (_dilate_shape inS ld).length = ws.length := by rw [dilate_shape_length, hin]
  have hRD : (_dilate_shape winS rd).length = ws.length := by rw [dilate_shape_length, hwin]
  have hOD : (_dilate_shape outS ws).length = ws.length := by rw [dilate_shape_length, hout]
  have hpblen : (List.zipWith (fun (k : Nat) (p : Int × Int) => (k : Int) - p.1 - 1)
      (_dilate_shape winS rd) pads).length = ws.length := by
    rw [List.length_zipWith, hRD, hpads]
    omega
  unfold _conv_general_vjp_lhs_padding
  rw [zipWith_getD_any _ _ _ i 0 0 ((0 : Int), (0 : Int)) (by omega : i < _)
    (by
      rw [List.length_zipWith, List.length_zipWith, List.length_zipWith, hLD, hRD, hOD]
      rw [hpblen]
      omega)]
  rw [zipWith_getD_any _ _ _ i 0 (0, 0) 0 (by rw [hRD]; exact hi) (by rw [hpads]; exact hi)]
  rw [zipWith_getD_any _ _ _ i 0 0 0
    (by rw [List.length_zipWith, List.length_zipWith, hLD, hRD, hOD]; omega)
    (by rw [hpblen]; exact hi)]
  rw [zipWith_getD_any _ _ _ i 0 0 0
    (by rw [List.length_zipWith, hLD, hRD]; omega) (by rw [hOD]; exact hi)]
  rw [zipWith_getD_any _ _ _ i 0 0 0 (by rw [hLD]; exact hi) (by rw [hRD]; exact hi)]
  rw [zipWith_getD_any _ _ _ i 0 (0, 0) 0 (by rw [hRD]; exact hi) (by rw [hpads]; exact hi)]
  rw [dilate_shape_getD_eqlen _ _ _ (by omega) (by omega)]
  rw [dilate_shape_getD_eqlen _ _ _ (by omega) (by omega)]
  rw [dilate_shape_getD_eqlen _ _ _ (by omega) (by omega)]

/-- C3: the gradient-w.r.t.-lhs rule emits a convolution of the upstream
gradient `g` against the (group-refolded, when grouped) kernel reversed
along every spatial axis, with its output/input-feature roles swapped in the
spec, the original `lhs_dilation` as the new window strides, the original
`window_strides` as the new lhs dilation, and per spatial axis the padding
`pad_before = dilated_kernel - original_pad_before - 1`,
`pad_after = dilated_input + dilated_kernel - 1 - dilated_output -
pad_before`. -/
theorem C3_transpose_lhs_structure {α : Type} [Inhabited α]
    (g rhs : NDArray α) (ws : List Nat) (pads : List (Int × Int)) (ld rd : List Nat)
    (dn : ConvDimensionNumbers) (fgc bgc : Nat) (lhs_shape rhs_shape : List Nat)
    (hl : IsSpec dn.lhs_spec (ws.length + 2)) (hr : IsSpec dn.rhs_spec (ws.length + 2))
    (ho : IsSpec dn.out_spec (ws.length + 2))
    (hpads : pads.length = ws.length) (hld : ld.length = ws.length)
    (hrd : rd.length = ws.length) :
    (_conv_general_dilated_transpose_lhs_call g rhs ws pads ld rd dn fgc bgc
        lhs_shape rhs_shape).window_strides = ld ∧
    (_conv_general_dilated_transpose_lhs_call g rhs ws pads ld rd dn fgc bgc
        lhs_shape rhs_shape).lhs_dilation = ws ∧
    (_conv_general_dilated_transpose_lhs_call g rhs ws pads ld rd dn fgc bgc
        lhs_shape rhs_shape).rhs_dilation = rd ∧
    (_conv_general_dilated_transpose_lhs_call g rhs ws pads ld rd dn fgc bgc
        lhs_shape rhs_shape).dimension_numbers =
      ⟨dn.out_spec, _conv_spec_transpose dn.rhs_spec, dn.lhs_spec⟩ ∧
    (_conv_general_dilated_transpose_lhs_call g rhs ws pads ld rd dn fgc bgc
        lhs_shape rhs_shape).lhs = g ∧
    (_conv_general_dilated_transpose_lhs_call g rhs ws pads ld rd dn fgc bgc
        lhs_shape rhs_shape).batch_group_count = 1 ∧
    (fgc = 1 → bgc = 1 →
      (_conv_general_dilated_transpose_lhs_call g rhs ws pads ld rd dn fgc bgc
        lhs_shape rhs_shape).rhs = lax_rev rhs (_conv_sdims dn.rhs_spec)) ∧
    (∀ i, i < ws.length →
      (_conv_general_dilated_transpose_lhs_call g rhs ws pads ld rd dn fgc bgc
          lhs_shape rhs_shape).padding.getD i (0, 0) =
        ((dilate (rhs_shape.getD (dn.rhs_spec.getD (2 + i) 0) 0) (rd.getD i 0) : Int) -
           (pads.getD i (0, 0)).1 - 1,
         ((dilate (lhs_shape.getD (dn.lhs_spec.getD (2 + i) 0) 0) (ld.getD i 0) : Int) +
            (dilate (rhs_shape.getD (dn.rhs_spec.getD (2 + i) 0) 0) (rd.getD i 0) : Int) - 1 -
            (dilate (g.shape.getD (dn.out_spec.getD (2 + i) 0) 0) (ws.getD i 0) : Int)) -
           ((dilate (rhs_shape.getD (dn.rhs_spec.getD (2 + i) 0) 0) (rd.getD i 0) : Int) -
             (pads.getD i (0, 0)).1 - 1))) := by
  refine ⟨rfl, rfl, rfl, rfl, rfl, rfl, ?_, ?_⟩
  · intro h1 h2
    simp only [_conv_general_dilated_transpose_lhs_call]
    rw [if_neg (by omega), if_neg (by omega)]
  · intro i hi
    simp only [_conv_general_dilated_transpose_lhs_call]
    have hsl : (_conv_sdims dn.lhs_spec).length = ws.length := by
      simp only [_conv_sdims, List.length_drop, hl.1]
      omega
    have hsr : (_conv_sdims dn.rhs_spec).length = ws.length := by
      simp only [_conv_sdims, List.length_drop, hr.1]
      omega
    have hso : (_conv_sdims dn.out_spec).length = ws.length := by
      simp only [_conv_sdims, List.length_drop, ho.1]
      omega
    rw [vjp_lhs_padding_getD _ _ _ _ _ _ _ _
      (by rw [takeIdx_length, hsl]) (by rw [takeIdx_length, hsr])
      (by rw [takeIdx_length, hso]) hpads hld hrd hi]
    rw [takeIdx_getD _ _ _
      (by simp only [_conv_sdims, List.length_drop, hl.1, hr.1, ho.1]; omega)]
    rw [takeIdx_getD _ _ _
      (by simp only [_conv_sdims, List.length_drop, hl.1, hr.1, ho.1]; omega)]
    rw [takeIdx_getD _ _ _
      (by simp only [_conv_sdims, List.length_drop, hl.1, hr.1, ho.1]; omega)]
    simp only [_conv_sdims]
    rw [getD_drop _ _ _ (by simp only [hl.1, hr.1, ho.1]; omega)]
    rw [getD_drop _ _ _ (by simp only [hl.1, hr.1, ho.1]; omega)]
    rw [getD_drop _ _ _ (by simp only [hl.1, hr.1, ho.1]; omega)]

/-- C3 witness at a concrete ungrouped rank-3 descriptor. -/
theorem C3_transpose_lhs_structure_witness :
    (_conv_general_dilated_transpose_lhs_call
        (⟨[1, 1, 4], List.replicate 4 ()⟩ : NDArray Unit)
        (⟨[1, 1, 2], List.replicate 2 ()⟩ : NDArray Unit)
        [1] [(0, 0)] [1] [1] ⟨[0, 1, 2], [0, 1, 2], [0, 1, 2]⟩ 1 1
        [1, 1, 5] [1, 1, 2]).window_strides = [1] ∧
    (_conv_general_dilated_transpose_lhs_call
        (⟨[1, 1, 4], List.replicate 4 ()⟩ : NDArray Unit)
        (⟨[1, 1, 2], List.replicate 2 ()⟩ : NDArray Unit)
        [1] [(0, 0)] [1] [1] ⟨[0, 1, 2], [0, 1, 2], [0, 1, 2]⟩ 1 1
        [1, 1, 5] [1, 1, 2]).padding.getD 0 (0, 0) = (1, 1) := by
  have h := C3_transpose_lhs_structure
    (⟨[1, 1, 4], List.replicate 4 ()⟩ : NDArray Unit)
    (⟨[1, 1, 2], List.replicate 2 ()⟩ : NDArray Unit)
    [1] [(0, 0)] [1] [1] ⟨[0, 1, 2], [0, 1, 2], [0, 1, 2]⟩ 1 1
    [1, 1, 5] [1, 1, 2] (by decide) (by decide) (by decide) rfl rfl rfl
  refine ⟨h.1, ?_⟩
  rw [h.2.2.2.2.2.2.2 0 (by decide)]
  decide

/-! ### Support lemmas for the gradient-shape theorems -/

theorem IsSpec.getD_ne {p : List Nat} {n : Nat} (h : IsSpec p n) {i j : Nat}
    (hi : i < n) (hj : j < n) (hne : i ≠ j) : p.getD i 0 ≠ p.getD j 0 := by
  intro he
  have h1 : p.indexOf (p.getD i 0) = i := indexOf_getD h.2.1 (h.1 ▸ hi)
  have h2 : p.indexOf (p.getD j 0) = j := indexOf_getD h.2.1 (h.1 ▸ hj)
  rw [he, h2] at h1
  exact hne h1.symm

theorem IsSpec.exists_getD {p : List Nat} {n : Nat} (h : IsSpec p n) {v : Nat} (hv : v < n) :
    ∃ j, j < n ∧ p.getD j 0 = v := by
  have hmem : v ∈ p := h.mem hv
  have hidx : p.indexOf v < p.length := List.indexOf_lt_length.mpr hmem
  refine ⟨p.indexOf v, h.1 ▸ hidx, ?_⟩
  rw [List.getD_eq_getElem _ _ hidx]
  exact List.indexOf_get hidx

theorem spec_transpose_getD_zero (p : List Nat) :
    (_conv_spec_transpose p).getD 0 0 = p.getD 1 0 := rfl

theorem spec_transpose_getD_one (p : List Nat) :
    (_conv_spec_transpose p).getD 1 0 = p.getD 0 0 := rfl

theorem spec_transpose_getD_spatial (p : List Nat) (i : Nat) (h : 2 + i < p.length) :
    (_conv_spec_transpose p).getD (2 + i) 0 = p.getD (2 + i) 0 := by
  show (p.getD 1 0 :: p.getD 0 0 :: p.drop 2).getD (2 + i) 0 = p.getD (2 + i) 0
  rw [getD_cons_two]
  exact getD_drop p 2 i h

theorem sdims_spec_transpose (p : List Nat) :
    _conv_sdims (_conv_spec_transpose p) = _conv_sdims p := rfl

theorem IsSpec.spec_transpose {p : List Nat} {n : Nat} (h : IsSpec p n) (hn : 2 ≤ n) :
    IsSpec (_conv_spec_transpose p) n := by
  cases p with
  | nil =>
      have := h.1
      simp at this
      omega
  | cons a q =>
      cases q with
      | nil =>
          have := h.1
          simp at this
          omega
      | cons b rest =>
          have heq : _conv_spec_transpose (a :: b :: rest) = b :: a :: rest := rfl
          rw [heq]
          have hperm : (b :: a :: rest).Perm (a :: b :: rest) := List.Perm.swap a b rest
          refine ⟨?_, ?_, ?_⟩
          · have := h.1
            simpa using this
          · exact (List.Perm.nodup_iff hperm).mpr h.2.1
          · intro x hx
            exact h.2.2 x (hperm.subset hx)

theorem firstFail_eq_none : ∀ {L : List (Bool × ConvError)},
    (∀ p ∈ L, p.1 = false) → firstFail L = none
  | [], _ => rfl
  | (b, e) :: t, h => by
      have hb : b = false := h (b, e) (List.mem_cons_self _ _)
      rw [firstFail, hb, if_neg (by simp)]
      exact firstFail_eq_none (fun p hp => h p (List.mem_cons_of_mem _ hp))

theorem fdiv_neg_one (d : Nat) (hd : 0 < d) : (-1 : Int).fdiv d = -1 := by
  obtain ⟨m, rfl⟩ : ∃ m, d = m + 1 := ⟨d - 1, by omega⟩
  have h1 : ((m + 1 : Nat) : Int) = Int.ofNat (m + 1) := rfl
  have h2 : (-1 : Int) = Int.negSucc 0 := rfl
  rw [h1, h2]
  unfold Int.fdiv
  simp

/-- The inverse-shape identity: the transposed output-size formula applied
to a dilated size recovers the original size. -/
theorem fdiv_dilate (I d : Nat) (hd : 0 < d) :
    (((dilate I d : Int) - 1).fdiv d + 1).toNat = I := by
  cases I with
  | zero =>
      show (((0 : Int) - 1).fdiv d + 1).toNat = 0
      rw [show ((0 : Int) - 1) = -1 from by ring, fdiv_neg_one d hd]
      rfl
  | succ m =>
      have hdil : (dilate (m + 1) d : Int) = m * d + 1 := by
        simp [dilate]
      rw [hdil]
      rw [show ((m : Int) * d + 1 - 1) = m * d from by ring]
      rw [Int.mul_fdiv_cancel _ (by exact_mod_cast Nat.pos_iff_ne_zero.mp hd)]
      simp

/-- Cancellation in the lhs-gradient output-size computation: the padded
gradient size collapses to `dilated_input - 1` per axis. -/
theorem vjp_lhs_axis (I ldil : Nat) (hld : 0 < ldil) (DG RD lo : Int) :
    ((DG + (RD - lo - 1) + ((dilate I ldil : Int) + RD - 1 - DG - (RD - lo - 1)) - RD).fdiv
      ldil + 1).toNat = I := by
  have h : DG + (RD - lo - 1) + ((dilate I ldil : Int) + RD - 1 - DG - (RD - lo - 1)) - RD =
      (dilate I ldil : Int) - 1 := by ring
  rw [h]
  exact fdiv_dilate I ldil hld

/-- Cancellation in the rhs-gradient output-size computation: the padded
input size collapses to `dilated_kernel - 1` per axis. -/
theorem vjp_rhs_axis (K rdil : Nat) (hrd : 0 < rdil) (LD DG lo : Int) :
    ((LD + lo + ((DG - LD) + ((dilate K rdil : Int) - lo - 1)) - DG).fdiv rdil + 1).toNat =
      K := by
  have h : LD + lo + ((DG - LD) + ((dilate K rdil : Int) - lo - 1)) - DG =
      (dilate K rdil : Int) - 1 := by ring
  rw [h]
  exact fdiv_dilate K rdil hrd

theorem shape_rule_out_length (lhs rhs ws : List Nat) (pads : List (Int × Int))
    (ld rd : List Nat) (dn : ConvDimensionNumbers) (bgc : Nat) :
    (shape_rule_out lhs rhs ws pads ld rd dn bgc).length = dn.out_spec.length := by
  simp only [shape_rule_out]
  rw [takeIdx_length, argsort_length]

/-- The success-path shape carries `lhs_batch / batch_group_count` at the
out-spec batch position. -/
theorem shape_rule_out_getD_batch (lhs rhs ws : List Nat) (pads : List (Int × Int))
    (ld rd : List Nat) (dn : ConvDimensionNumbers) (bgc : Nat)
    (hl : IsSpec dn.lhs_spec (ws.length + 2)) (ho : IsSpec dn.out_spec (ws.length + 2))
    (hld : ld.length = ws.length) (hbgc : 0 < bgc) :
    (shape_rule_out lhs rhs ws pads ld rd dn bgc).getD (dn.out_spec.getD 0 0) 0 =
      lhs.getD (dn.lhs_spec.getD 0 0) 0 / bgc := by
  simp only [shape_rule_out]
  rw [takeIdx_argsort_getD ho _ (show (0 : Nat) < ws.length + 2 from by omega)]
  rw [List.getD_cons_zero]
  have hA2 : (takeIdx lhs dn.lhs_spec).length = ld.length + 2 := by
    rw [takeIdx_length, hl.1, hld]
  have hA0 : (_dilate_shape (takeIdx lhs dn.lhs_spec) ld).getD 0 0 =
      lhs.getD (dn.lhs_spec.getD 0 0) 0 := by
    rw [dilate_shape_getD_head _ _ _ hA2 (by omega)]
    rw [takeIdx_getD _ _ _ (by rw [hl.1]; omega)]
  by_cases hb1 : bgc > 1
  · rw [if_pos hb1, hA0]
  · rw [if_neg hb1, hA0, show bgc = 1 from by omega, Nat.div_one]

/-- The success-path shape carries the rhs output-feature size at the
out-spec feature position. -/
theorem shape_rule_out_getD_feature (lhs rhs ws : List Nat) (pads : List (Int × Int))
    (ld rd : List Nat) (dn : ConvDimensionNumbers) (bgc : Nat)
    (hr : IsSpec dn.rhs_spec (ws.length + 2)) (ho : IsSpec dn.out_spec (ws.length + 2))
    (hrd : rd.length = ws.length) :
    (shape_rule_out lhs rhs ws pads ld rd dn bgc).getD (dn.out_spec.getD 1 0) 0 =
      rhs.getD (dn.rhs_spec.getD 0 0) 0 := by
  simp only [shape_rule_out]
  rw [takeIdx_argsort_getD ho _ (show (1 : Nat) < ws.length + 2 from by omega)]
  rw [List.getD_cons_succ, List.getD_cons_zero]
  have hB2 : (takeIdx rhs dn.rhs_spec).length = rd.length + 2 := by
    rw [takeIdx_length, hr.1, hrd]
  rw [dilate_shape_getD_head _ _ _ hB2 (by omega)]
  rw [takeIdx_getD _ _ _ (by rw [hr.1]; omega)]

/-- The success-path shape carries the strided window-count formula at the
out-spec position of each spatial axis. -/
theorem shape_rule_out_getD_spatial (lhs rhs ws : List Nat) (pads : List (Int × Int))
    (ld rd : List Nat) (dn : ConvDimensionNumbers) (bgc : Nat) (i : Nat)
    (hl : IsSpec dn.lhs_spec (ws.length + 2)) (hr : IsSpec dn.rhs_spec (ws.length + 2))
    (ho : IsSpec dn.out_spec (ws.length + 2))
    (hpads : pads.length = ws.length) (hld : ld.length = ws.length)
    (hrd : rd.length = ws.length) (hi : i < ws.length) :
    (shape_rule_out lhs rhs ws pads ld rd dn bgc).getD (dn.out_spec.getD (2 + i) 0) 0 =
      (((dilate (lhs.getD (dn.lhs_spec.getD (2 + i) 0) 0) (ld.getD i 0) : Int) +
          (pads.getD i (0, 0)).1 + (pads.getD i (0, 0)).2 -
          (dilate (rhs.getD (dn.rhs_spec.getD (2 + i) 0) 0) (rd.getD i 0) : Int)).fdiv
        (ws.getD i 0 : Int) + 1).toNat := by
  simp only [shape_rule_out]
  have hAlen : (_dilate_shape (takeIdx lhs dn.lhs_spec) ld).length = ws.length + 2 := by
    rw [dilate_shape_length, takeIdx_length, hl.1]
  have hBlen : (_dilate_shape (takeIdx rhs dn.rhs_spec) rd).length = ws.length + 2 := by
    rw [dilate_shape_length, takeIdx_length, hr.1]
  have hA2 : (takeIdx lhs dn.lhs_spec).length = ld.length + 2 := by
    rw [takeIdx_length, hl.1, hld]
  have hB2 : (takeIdx rhs dn.rhs_spec).length = rd.length + 2 := by
    rw [takeIdx_length, hr.1, hrd]
  rw [takeIdx_argsort_getD ho _ (show 2 + i < ws.length + 2 from by omega)]
  rw [getD_cons_two]
  have hziplen : (List.zipWith (fun (d : Nat) (p : Int × Int) => (d : Int) + p.1 + p.2)
      ((_dilate_shape (takeIdx lhs dn.lhs_spec) ld).drop 2) pads).length = ws.length := by
    rw [List.length_zipWith, List.length_drop, hAlen, hpads]
    omega
  have hssen : (stride_shape
      (List.zipWith (fun (d : Nat) (p : Int × Int) => (d : Int) + p.1 + p.2)
        ((_dilate_shape (takeIdx lhs dn.lhs_spec) ld).drop 2) pads)
      ((_dilate_shape (takeIdx rhs dn.rhs_spec) rd).drop 2) ws).length = ws.length := by
    rw [show (stride_shape _ _ _).length = _ from zipWith3_length _ _ _ _]
    rw [hziplen, List.length_drop, hBlen]
    omega
  rw [map_getD_any Int.toNat _ i 0 0 (by rw [hssen]; exact hi)]
  unfold stride_shape
  rw [zipWith3_getD_any _ _ _ _ i 0 0 0 0 (by rw [hziplen]; exact hi)
    (by rw [List.length_drop, hBlen]; omega) hi]
  rw [zipWith_getD_any _ _ _ i 0 (0, 0) 0
    (by rw [List.length_drop, hAlen]; omega) (by rw [hpads]; exact hi)]
  rw [getD_drop _ _ _ (by rw [hAlen]; omega)]
  rw [getD_drop _ _ _ (by rw [hBlen]; omega)]
  rw [dilate_shape_getD_spatial _ _ _ hA2 (by omega)]
  rw [dilate_shape_getD_spatial _ _ _ hB2 (by omega)]
  rw [takeIdx_getD _ _ _ (by rw [hl.1]; omega)]
  rw [takeIdx_getD _ _ _ (by rw [hr.1]; omega)]

theorem vjp_lhs_padding_length (inS winS ws outS : List Nat) (pads : List (Int × Int))
    (ld rd : List Nat)
    (hin : inS.length = ws.length) (hwin : winS.length = ws.length)
    (hout : outS.length = ws.length) (hpads : pads.length = ws.length) :
    (_conv_general_vjp_lhs_padding inS winS ws outS pads ld rd).length = ws.length := by
  unfold _conv_general_vjp_lhs_padding
  simp only [List.length_zipWith, dilate_shape_length, hin, hwin, hout, hpads]
  omega

theorem vjp_rhs_padding_length (inS winS ws outS : List Nat) (pads : List (Int × Int))
    (ld rd : List Nat)
    (hin : inS.length = ws.length) (hwin : winS.length = ws.length)
    (hout : outS.length = ws.length) (hpads : pads.length = ws.length) :
    (_conv_general_vjp_rhs_padding inS winS ws outS pads ld rd).length = ws.length := by
  unfold _conv_general_vjp_rhs_padding
  by_cases h0 : inS.length = 0
  · rw [if_pos h0]
    simp only [List.length_nil]
    omega
  · rw [if_neg h0]
    simp only [List.length_zipWith, List.length_map, dilate_shape_length, hin, hwin, hout,
      hpads]
    omega

/-- Per-axis characterization of `_conv_general_vjp_rhs_padding` (on a
nonempty spatial profile). -/
theorem vjp_rhs_padding_getD (inS winS ws outS : List Nat) (pads : List (Int × Int))
    (ld rd : List Nat) (i : Nat)
    (hin : inS.length = ws.length) (hwin : winS.length = ws.length)
    (hout : outS.length = ws.length) (hpads : pads.length = ws.length)
    (hld : ld.length = ws.length) (hrd : rd.length = ws.length) (hi : i < ws.length) :
    (_conv_general_vjp_rhs_padding inS winS ws outS pads ld rd).getD i (0, 0) =
      ((pads.getD i (0, 0)).1,
       ((dilate (outS.getD i 0) (ws.getD i 0) : Int) -
          (dilate (inS.getD i 0) (ld.getD i 0) : Int)) +
         ((dilate (winS.getD i 0) (rd.getD i 0) : Int) - (pads.getD i (0, 0)).1 - 1)) := by
  have hLD : (_dilate_shape inS ld).length = ws.length := by rw [dilate_shape_length, hin]
  have hRD : (_dilate_shape winS rd).length = ws.length := by rw [dilate_shape_length, hwin]
  have hOD : (_dilate_shape outS ws).length = ws.length := by rw [dilate_shape_length, hout]
  have hlolen : (pads.map (fun p => p.1)).length = ws.length := by
    rw [List.length_map, hpads]
  unfold _conv_general_vjp_rhs_padding
  rw [if_neg (by omega)]
  rw [zipWith_getD_any _ _ _ i 0 0 ((0 : Int), (0 : Int)) (by rw [hlolen]; exact hi)
    (by
      rw [List.length_zipWith, List.length_zipWith, List.length_zipWith, hOD, hLD, hRD]
      rw [hlolen]
      omega)]
  rw [map_getD_any _ _ i (0, 0) 0 (by rw [hpads]; exact hi)]
  rw [zipWith_getD_any _ _ _ i 0 0 0
    (by rw [List.length_zipWith, hOD, hLD]; omega)
    (by rw [List.length_zipWith, hRD, hlolen]; omega)]
  rw [zipWith_getD_any _ _ _ i 0 0 0 (by rw [hOD]; exact hi) (by rw [hLD]; exact hi)]
  rw [zipWith_getD_any _ _ _ i 0 0 0 (by rw [hRD]; exact hi) (by rw [hlolen]; exact hi)]
  rw [map_getD_any _ _ i (0, 0) 0 (by rw [hpads]; exact hi)]
  rw [dilate_shape_getD_eqlen _ _ _ (by omega) (by omega)]
  rw [dilate_shape_getD_eqlen _ _ _ (by omega) (by omega)]
  rw [dilate_shape_getD_eqlen _ _ _ (by omega) (by omega)]
